import Mathlib

/-!
Shallow embedding of the `table_transfer` repository
(`src/table_transfer/table_transfer.py` and `src/table_transfer/helpers.py`).

Records are Python dicts from field name to value, modelled as insertion-ordered
association lists.  Byte payloads are modelled as `String` (all payloads in this
system are UTF-8 text).  The external world (local filesystem, object storage,
relational store) is explicit state; every operation that can raise returns
`Except Err`, whose constructors name the concrete Python exception raised at
the corresponding source line.  The stdlib/third-party pieces the source calls
(`csv` reader and writer, `str.splitlines`, `json.dumps`/`json.loads`,
object-storage get/put, the relational copy/truncate effects) are modelled by
their documented behaviour on the fragment this program exercises.
-/

set_option maxRecDepth 8192

namespace TableTransferModel

/-- Field values a record can hold in this system: a text value, Python `None`
(produced by `csv.DictReader`'s `restval` padding), or the list of extra cells
collected under `csv.DictReader`'s `restkey`. -/
inductive CVal where
  | s (v : String)
  | null
  | extra (vs : List String)
deriving DecidableEq, Repr

/-- Record keys. `csv.DictReader` uses `None` as its `restkey`, so a key is an
optional string. -/
abbrev RKey := Option String

/-- One record: a Python dict from field name to value, as an insertion-ordered
association list (the Python-dict invariant is that keys are distinct). -/
abbrev Record := List (RKey × CVal)

/-- The in-memory Record Set: an ordered list of records. -/
abbrev RecordSet := List Record

/-- A plain record from string pairs (the shape the round-trip properties use). -/
def ofPairs (ps : List (String × String)) : Record :=
  ps.map (fun p => ((some p.1 : RKey), CVal.s p.2))

/-- Exceptions the modelled code can raise, named after the concrete Python
raise site. -/
inductive Err where
  | getEntriesFirst        -- Exception('Get entries at first, cant proceed')
  | noSourceFileName       -- Exception('No source_file_name provided, cant proceed')
  | noTargetFileName       -- Exception('No target_file_name provided, cant proceed')
  | unexpectedSourceType   -- ValueError('Unexpected source_type=..., CSV/JSON to be used')
  | raiseNotImplemented    -- TypeError from `raise NotImplemented(...)`
  | emptyCsvHeader         -- IndexError from `csv_dict[0]` on an empty list
  | valueErrorExtraKeys    -- ValueError from DictWriter extrasaction='raise'
  | noPgConnection         -- Exception('Cant execute any query, no connection provided')
  | fileNotFound           -- FileNotFoundError from open() on a missing file
  | s3KeyNotFound          -- botocore ClientError for a missing object
  | jsonDecodeError        -- json.JSONDecodeError (or a JSON shape not modelled here)
deriving DecidableEq, Repr

/-- Association-list lookup (Python `d[k]` / `.get`), by decidable equality. -/
def alookup {α β : Type} [DecidableEq α] (k : α) : List (α × β) → Option β
  | [] => none
  | p :: ps => if k = p.1 then some p.2 else alookup k ps

/-- Python `d[k] = v` on an insertion-ordered dict (also used for the assoc-list
stores of the world): update in place when the key exists, else append. -/
def assocSet {α β : Type} [DecidableEq α] (l : List (α × β)) (k : α) (v : β) :
    List (α × β) :=
  if (l.map Prod.fst).contains k then
    l.map (fun p => if p.1 = k then (k, v) else p)
  else l ++ [(k, v)]

/-- Build a Python dict from a pair list, later occurrences of a key
overwriting earlier ones in place (exactly `dict(pairs)`). -/
def pyDictOfPairs (ps : List (RKey × CVal)) : Record :=
  ps.foldl (fun d p => assocSet d p.1 p.2) []

/-! ## `str.splitlines` -/

/-- The characters `str.splitlines` treats as line boundaries. -/
def isPyLineBoundary (c : Char) : Bool :=
  c = '\n' ∨ c = '\r' ∨ c = '\x0b' ∨ c = '\x0c' ∨ c = '\x1c' ∨ c = '\x1d' ∨
    c = '\x1e' ∨ c = '\x85' ∨ c = '\u2028' ∨ c = '\u2029'

def splitlinesAux : List Char → List Char → List String
  | [], cur => if cur.isEmpty then [] else [String.mk cur.reverse]
  | '\r' :: '\n' :: rest, cur => String.mk cur.reverse :: splitlinesAux rest []
  | c :: rest, cur =>
    if isPyLineBoundary c then String.mk cur.reverse :: splitlinesAux rest []
    else splitlinesAux rest (c :: cur)

/-- Python `s.splitlines()`. -/
def pySplitlines (s : String) : List String := splitlinesAux s.data []

/-! ## csv writer (excel dialect, QUOTE_MINIMAL), as used by `csv.DictWriter` -/

/-- QUOTE_MINIMAL quotes a field iff it contains the delimiter, the quote
character, or a character of the `\r\n` line terminator. -/
def csvNeedsQuote (s : String) : Bool :=
  s.data.any (fun c => c = ',' ∨ c = '"' ∨ c = '\r' ∨ c = '\n')

/-- Doubling of the quote character inside a quoted field. -/
def dblQuote (l : List Char) : List Char :=
  l.flatMap (fun c => if c = '"' then ['"', '"'] else [c])

def csvQuote (s : String) : String :=
  "\"" ++ String.mk (dblQuote s.data) ++ "\""

def csvRenderField (s : String) : String :=
  if csvNeedsQuote s then csvQuote s else s

def csvJoinComma : List String → String
  | [] => ""
  | [x] => x
  | x :: xs => x ++ "," ++ csvJoinComma xs

/-- The text of one row before its terminator.  A row consisting of a single
empty field is written quoted (`""`) so that it is not an empty line. -/
def csvLineStr (cells : List String) : String :=
  if cells = [""] then "\"\"" else csvJoinComma (cells.map csvRenderField)

/-- One written row, `\r\n`-terminated. -/
def csvRenderRow (cells : List String) : String :=
  csvLineStr cells ++ "\r\n"

/-- Python `str()` of a list of plain strings (how the csv writer would render a
`restkey` cell list; never exercised by the verified properties). -/
def pyStrList (vs : List String) : String :=
  "[" ++ String.intercalate ", " (vs.map (fun v => "\x27" ++ v ++ "\x27")) ++ "]"

/-- How the csv writer renders one cell value (`None` becomes the empty field). -/
def cellString : CVal → String
  | .s v => v
  | .null => ""
  | .extra vs => pyStrList vs

/-- The header cell for a field name (`None` is written as the empty field). -/
def csvStrOfKey : RKey → String
  | none => ""
  | some k => k

/-- `DictWriter._dict_to_list`: the row's cells in field-name order, missing
keys filled with the `restval` `None`. -/
def dictToRow (fieldnames : List RKey) (r : Record) : List String :=
  fieldnames.map (fun k =>
    match alookup k r with
    | some v => cellString v
    | none => cellString CVal.null)

/-- `extrasaction='raise'`: a record with a key outside the field names makes
`writerow` raise. -/
def hasExtraKey (fieldnames : List RKey) (r : Record) : Bool :=
  r.any (fun p => ¬ fieldnames.contains p.1)

/-- Content produced by `DictWriter.writerows`, with the error raised when a
record has an extra key; rows before the failing one are already written. -/
def csvWriteRows (fieldnames : List RKey) : RecordSet → String × Option Err
  | [] => ("", none)
  | r :: rs =>
    if hasExtraKey fieldnames r then ("", some .valueErrorExtraKeys)
    else
      let p := csvWriteRows fieldnames rs
      (csvRenderRow (dictToRow fieldnames r) ++ p.1, p.2)

/-! ## csv reader (excel dialect, strict=False), as used by `csv.DictReader` -/

inductive CsvSt where
  | startRecord | startField | inField | inQuoted | quoteInQuoted
deriving DecidableEq, Repr

/-- Parsing accumulator: state, current field (reversed), current row (reversed). -/
structure CsvAcc where
  st : CsvSt
  field : List Char
  row : List String
deriving DecidableEq, Repr

def csvFreshAcc : CsvAcc := ⟨.startRecord, [], []⟩

/-- One character of the `_csv.c` reader automaton (no `\r`/`\n` can occur in
the input because the lines come from `str.splitlines`). -/
def csvStep (a : CsvAcc) (c : Char) : CsvAcc :=
  match a.st with
  | .startRecord | .startField =>
    if c = '"' then ⟨.inQuoted, a.field, a.row⟩
    else if c = ',' then ⟨.startField, [], "" :: a.row⟩
    else ⟨.inField, [c], a.row⟩
  | .inField =>
    if c = ',' then ⟨.startField, [], String.mk a.field.reverse :: a.row⟩
    else ⟨.inField, c :: a.field, a.row⟩
  | .inQuoted =>
    if c = '"' then ⟨.quoteInQuoted, a.field, a.row⟩
    else ⟨.inQuoted, c :: a.field, a.row⟩
  | .quoteInQuoted =>
    if c = '"' then ⟨.inQuoted, '"' :: a.field, a.row⟩
    else if c = ',' then ⟨.startField, [], String.mk a.field.reverse :: a.row⟩
    else ⟨.inField, c :: a.field, a.row⟩

def csvRunLine : List Char → CsvAcc → CsvAcc
  | [], a => a
  | c :: cs, a => csvRunLine cs (csvStep a c)

/-- End of one input line: inside a quoted field the parse continues on the next
line (the boundary characters were consumed by `splitlines` and are not data);
otherwise the pending record is emitted (a blank line emits the empty record). -/
def csvLineEnd (a : CsvAcc) : Option (List String) × CsvAcc :=
  match a.st with
  | .startRecord => (some a.row.reverse, csvFreshAcc)
  | .inQuoted => (none, a)
  | _ => (some ((String.mk a.field.reverse :: a.row).reverse), csvFreshAcc)

def csvReadAux : List String → CsvAcc → List (List String)
  | [], a =>
    if a.st = .startRecord then []
    else [((String.mk a.field.reverse) :: a.row).reverse]
  | l :: ls, a =>
    match csvLineEnd (csvRunLine l.data a) with
    | (some row, fresh) => row :: csvReadAux ls fresh
    | (none, aCont) => csvReadAux ls aCont

/-- `csv.reader` over a list of lines. -/
def csvReaderRows (lines : List String) : List (List String) :=
  csvReadAux lines csvFreshAcc

/-- One `csv.DictReader` record: `dict(zip(fieldnames, row))`, short rows padded
with the `restval` `None`, long rows collecting extra cells under the `restkey`
`None`. -/
def rowRecord (fns : List String) (row : List String) : Record :=
  let base := (List.zip fns row).map (fun p => ((some p.1 : RKey), CVal.s p.2))
  let padded :=
    if row.length < fns.length then
      base ++ (fns.drop row.length).map (fun k => ((some k : RKey), CVal.null))
    else if fns.length < row.length then
      base ++ [((none : RKey), CVal.extra (row.drop fns.length))]
    else base
  pyDictOfPairs padded

/-- `csv.DictReader`: the first row (blank or not) gives the field names; later
blank rows are skipped. -/
def dictReaderRecords : List (List String) → RecordSet
  | [] => []
  | fns :: rest =>
    (rest.filter (fun row => !row.isEmpty)).map (fun row => rowRecord fns row)

/-- `helpers.csv_file_content_to_dict`:
`[row for row in csv.DictReader(file_content.splitlines())]`. -/
def csv_file_content_to_dict (file_content : String) : RecordSet :=
  dictReaderRecords (csvReaderRows (pySplitlines file_content))

/-! ## `json.dumps(..., indent=2)` (default `ensure_ascii=True`) -/

def hexDig (d : Nat) : Char :=
  if d < 10 then Char.ofNat (48 + d) else Char.ofNat (87 + d)

def hex4 (n : Nat) : List Char :=
  [hexDig (n / 4096 % 16), hexDig (n / 256 % 16), hexDig (n / 16 % 16), hexDig (n % 16)]

/-- `json.dumps` ASCII escaping of one character (astral characters become a
surrogate pair of `\uXXXX` escapes). -/
def jsonEscapeChar (c : Char) : List Char :=
  if c = '"' then ['\\', '"']
  else if c = '\\' then ['\\', '\\']
  else if c = '\n' then ['\\', 'n']
  else if c = '\r' then ['\\', 'r']
  else if c = '\t' then ['\\', 't']
  else if c = '\x08' then ['\\', 'b']
  else if c = '\x0c' then ['\\', 'f']
  else if c.toNat < 0x20 then '\\' :: 'u' :: hex4 c.toNat
  else if c.toNat ≤ 0x7e then [c]
  else if c.toNat < 0x10000 then '\\' :: 'u' :: hex4 c.toNat
  else
    ('\\' :: 'u' :: hex4 (0xd800 + (c.toNat - 0x10000) / 0x400)) ++
      ('\\' :: 'u' :: hex4 (0xdc00 + (c.toNat - 0x10000) % 0x400))

def dumpStrL (s : String) : List Char :=
  '"' :: s.data.flatMap jsonEscapeChar ++ ['"']

def joinSep (sep : List Char) : List (List Char) → List Char
  | [] => []
  | [x] => x
  | x :: xs => x ++ sep ++ joinSep sep xs

/-- A `None` dict key is serialized as the string key `"null"`. -/
def jsonKeyL : RKey → List Char
  | none => dumpStrL "null"
  | some k => dumpStrL k

/-- A value inside a record object (nesting depth 2, hence the 6-space indent
for the elements of a `restkey` list). -/
def jsonValL : CVal → List Char
  | .s v => dumpStrL v
  | .null => "null".data
  | .extra vs =>
    match vs with
    | [] => "[]".data
    | _ => "[\n      ".data ++ joinSep ",\n      ".data (vs.map dumpStrL) ++ "\n    ]".data

def jsonObjL (r : Record) : List Char :=
  match r with
  | [] => ['\x7b', '\x7d']
  | _ =>
    '\x7b' :: '\n' ::
      (joinSep ",\n".data
        (r.map (fun p => "    ".data ++ jsonKeyL p.1 ++ ": ".data ++ jsonValL p.2))) ++
      "\n  ".data ++ ['\x7d']

def jsonDumpsL (entries : RecordSet) : List Char :=
  match entries with
  | [] => "[]".data
  | _ =>
    '[' :: '\n' :: "  ".data ++ joinSep ",\n  ".data (entries.map jsonObjL) ++ "\n]".data

/-- `json.dumps(entries, indent=2)`. -/
def jsonDumps (entries : RecordSet) : String := String.mk (jsonDumpsL entries)

/-! ## `json.loads`, on the fragment of JSON this system produces -/

def isJsonWs (c : Char) : Bool :=
  c = ' ' ∨ c = '\t' ∨ c = '\n' ∨ c = '\r'

def skipWs : List Char → List Char
  | [] => []
  | c :: cs => if isJsonWs c then skipWs cs else c :: cs

def hexVal (c : Char) : Option Nat :=
  if '0' ≤ c ∧ c ≤ '9' then some (c.toNat - 48)
  else if 'a' ≤ c ∧ c ≤ 'f' then some (c.toNat - 87)
  else if 'A' ≤ c ∧ c ≤ 'F' then some (c.toNat - 55)
  else none

def parseHex4 : List Char → Option (Nat × List Char)
  | c3 :: c2 :: c1 :: c0 :: rest =>
    match hexVal c3, hexVal c2, hexVal c1, hexVal c0 with
    | some d3, some d2, some d1, some d0 => some (d3 * 4096 + d2 * 256 + d1 * 16 + d0, rest)
    | _, _, _, _ => none
  | _ => none

/-- One backslash escape of a JSON string (surrogate pairs are combined exactly
as `json.loads` combines them; a lone surrogate value is outside `Char` and is
mapped through `Char.ofNat`'s default — such payloads are never produced by this
system). -/
def parseEscape (cs : List Char) : Option (Char × List Char) :=
  match cs with
  | [] => none
  | e :: rest =>
    if e = '"' then some ('"', rest)
    else if e = '\\' then some ('\\', rest)
    else if e = '/' then some ('/', rest)
    else if e = 'b' then some ('\x08', rest)
    else if e = 'f' then some ('\x0c', rest)
    else if e = 'n' then some ('\n', rest)
    else if e = 'r' then some ('\r', rest)
    else if e = 't' then some ('\t', rest)
    else if e = 'u' then
      match parseHex4 rest with
      | none => none
      | some (n, rest1) =>
        if 0xd800 ≤ n ∧ n ≤ 0xdbff then
          match rest1 with
          | c1 :: c2 :: rest2 =>
            if c1 = '\\' ∧ c2 = 'u' then
              match parseHex4 rest2 with
              | some (m, rest3) =>
                if 0xdc00 ≤ m ∧ m ≤ 0xdfff then
                  some (Char.ofNat (0x10000 + (n - 0xd800) * 0x400 + (m - 0xdc00)), rest3)
                else some (Char.ofNat n, c1 :: c2 :: rest2)
              | none => some (Char.ofNat n, c1 :: c2 :: rest2)
            else some (Char.ofNat n, c1 :: c2 :: rest2)
          | _ => some (Char.ofNat n, rest1)
        else some (Char.ofNat n, rest1)
    else none

theorem parseHex4_shrinks {cs : List Char} {n : Nat} {rest : List Char}
    (h : parseHex4 cs = some (n, rest)) : rest.length + 4 = cs.length := by
  match cs with
  | [] => simp [parseHex4] at h
  | [a] => simp [parseHex4] at h
  | [a, b] => simp [parseHex4] at h
  | [a, b, c] => simp [parseHex4] at h
  | a :: b :: c :: d :: tail =>
    simp only [parseHex4] at h
    cases ha : hexVal a <;> cases hb : hexVal b <;> cases hc : hexVal c <;>
      cases hd : hexVal d <;> simp [ha, hb, hc, hd] at h
    simp [← h.2]

theorem parseEscape_shrinks {cs : List Char} {c : Char} {rest : List Char}
    (h : parseEscape cs = some (c, rest)) : rest.length < cs.length := by
  match cs with
  | [] => simp [parseEscape] at h
  | e :: tail =>
    simp only [parseEscape] at h
    by_cases h1 : e = '"'
    · rw [if_pos h1] at h; cases h; simp
    rw [if_neg h1] at h
    by_cases h2 : e = '\\'
    · rw [if_pos h2] at h; cases h; simp
    rw [if_neg h2] at h
    by_cases h3 : e = '/'
    · rw [if_pos h3] at h; cases h; simp
    rw [if_neg h3] at h
    by_cases h4 : e = 'b'
    · rw [if_pos h4] at h; cases h; simp
    rw [if_neg h4] at h
    by_cases h5 : e = 'f'
    · rw [if_pos h5] at h; cases h; simp
    rw [if_neg h5] at h
    by_cases h6 : e = 'n'
    · rw [if_pos h6] at h; cases h; simp
    rw [if_neg h6] at h
    by_cases h7 : e = 'r'
    · rw [if_pos h7] at h; cases h; simp
    rw [if_neg h7] at h
    by_cases h8 : e = 't'
    · rw [if_pos h8] at h; cases h; simp
    rw [if_neg h8] at h
    by_cases h9 : e = 'u'
    swap
    · rw [if_neg h9] at h; cases h
    rw [if_pos h9] at h
    match hh : parseHex4 tail with
    | none => rw [hh] at h; cases h
    | some (n, rest1) =>
      have hlen1 := parseHex4_shrinks hh
      rw [hh] at h
      simp only at h
      by_cases hs : 0xd800 ≤ n ∧ n ≤ 0xdbff
      swap
      · rw [if_neg hs] at h
        cases h
        simp only [List.length_cons]
        omega
      rw [if_pos hs] at h
      match rest1, hlen1 with
      | [], hlen1 =>
        simp only at h
        cases h
        simp only [List.length_cons, List.length_nil] at hlen1 ⊢
        omega
      | [c1], hlen1 =>
        simp only at h
        cases h
        simp only [List.length_cons, List.length_nil] at hlen1 ⊢
        omega
      | c1 :: c2 :: rest2, hlen1 =>
        simp only at h
        by_cases hc : c1 = '\\' ∧ c2 = 'u'
        swap
        · rw [if_neg hc] at h
          cases h
          simp only [List.length_cons] at hlen1 ⊢
          omega
        rw [if_pos hc] at h
        match hh2 : parseHex4 rest2 with
        | none =>
          rw [hh2] at h
          simp only at h
          cases h
          simp only [List.length_cons] at hlen1 ⊢
          omega
        | some (m, rest3) =>
          have hlen2 := parseHex4_shrinks hh2
          rw [hh2] at h
          simp only at h
          by_cases hm : 0xdc00 ≤ m ∧ m ≤ 0xdfff
          · rw [if_pos hm] at h
            simp only [Option.some.injEq, Prod.mk.injEq] at h
            obtain ⟨-, h2⟩ := h
            subst h2
            simp only [List.length_cons] at hlen1 ⊢
            omega
          · rw [if_neg hm] at h
            simp only [Option.some.injEq, Prod.mk.injEq] at h
            obtain ⟨-, h2⟩ := h
            subst h2
            simp only [List.length_cons] at hlen1 ⊢
            omega

def parseStrAux : Nat → List Char → List Char → Option (String × List Char)
  | 0, _, _ => none
  | _ + 1, [], _ => none
  | fuel + 1, c :: rest, acc =>
    if c = '"' then some (String.mk acc.reverse, rest)
    else if c = '\\' then
      match parseEscape rest with
      | some p => parseStrAux fuel p.2 (p.1 :: acc)
      | none => none
    else if c.toNat < 0x20 then none
    else parseStrAux fuel rest (c :: acc)

/-- Parse one JSON string literal (including its opening quote). -/
def parseJString (cs : List Char) : Option (String × List Char) :=
  match cs with
  | [] => none
  | c :: rest => if c = '"' then parseStrAux (rest.length + 1) rest [] else none

def parseStrItems : Nat → List Char → Option (List String × List Char)
  | 0, _ => none
  | fuel + 1, cs =>
    match parseJString cs with
    | none => none
    | some (s, rest) =>
      match skipWs rest with
      | [] => none
      | c :: rest2 =>
        if c = ',' then
          match parseStrItems fuel (skipWs rest2) with
          | some (ss, rest3) => some (s :: ss, rest3)
          | none => none
        else if c = ']' then some ([s], rest2)
        else none

def parseStrArray (cs : List Char) : Option (List String × List Char) :=
  match cs with
  | [] => none
  | c :: rest =>
    if c = '[' then
      match skipWs rest with
      | [] => none
      | d :: rest2 =>
        if d = ']' then some ([], rest2)
        else parseStrItems ((skipWs rest).length + 1) (skipWs rest)
    else none

def parseJVal (cs : List Char) : Option (CVal × List Char) :=
  match cs with
  | [] => none
  | c :: rest =>
    if c = '"' then
      match parseStrAux (rest.length + 1) rest [] with
      | some (s, rest1) => some (CVal.s s, rest1)
      | none => none
    else if c = '[' then
      match parseStrArray (c :: rest) with
      | some (vs, rest1) => some (CVal.extra vs, rest1)
      | none => none
    else if c = 'n' then
      match rest with
      | 'u' :: 'l' :: 'l' :: rest1 => some (CVal.null, rest1)
      | _ => none
    else none

def parsePairsAux : Nat → List Char → Option (List (RKey × CVal) × List Char)
  | 0, _ => none
  | fuel + 1, cs =>
    match parseJString cs with
    | none => none
    | some (k, rest) =>
      match skipWs rest with
      | [] => none
      | c :: rest1 =>
        if c = ':' then
          match parseJVal (skipWs rest1) with
          | none => none
          | some (v, rest2) =>
            match skipWs rest2 with
            | [] => none
            | d :: rest3 =>
              if d = ',' then
                match parsePairsAux fuel (skipWs rest3) with
                | some (ps, rest4) => some (((some k : RKey), v) :: ps, rest4)
                | none => none
              else if d = '\x7d' then some ([((some k : RKey), v)], rest3)
              else none
        else none

def parseObj (cs : List Char) : Option (Record × List Char) :=
  match cs with
  | [] => none
  | c :: rest =>
    if c = '\x7b' then
      match skipWs rest with
      | [] => none
      | d :: rest2 =>
        if d = '\x7d' then some ([], rest2)
        else
          match parsePairsAux ((skipWs rest).length + 1) (skipWs rest) with
          | some (ps, rest3) => some (pyDictOfPairs ps, rest3)
          | none => none
    else none

def parseItemsAux : Nat → List Char → Option (RecordSet × List Char)
  | 0, _ => none
  | fuel + 1, cs =>
    match parseObj cs with
    | none => none
    | some (r, rest) =>
      match skipWs rest with
      | [] => none
      | c :: rest1 =>
        if c = ',' then
          match parseItemsAux fuel (skipWs rest1) with
          | some (rs, rest2) => some (r :: rs, rest2)
          | none => none
        else if c = ']' then some ([r], rest1)
        else none

/-- Models `json.loads` on the fragment of JSON this system itself produces (an
array of objects with string keys and string / null / string-array values);
other JSON shapes and malformed payloads map to `none`. -/
def jsonLoads (s : String) : Option RecordSet :=
  match skipWs s.data with
  | [] => none
  | c :: rest =>
    if c = '[' then
      match skipWs rest with
      | [] => none
      | d :: rest2 =>
        if d = ']' then if (skipWs rest2).isEmpty then some [] else none
        else
          match parseItemsAux ((skipWs rest).length + 1) (skipWs rest) with
          | some (rs, rest3) => if (skipWs rest3).isEmpty then some rs else none
          | none => none
    else none

/-! ## The external world: local filesystem, object storage, relational store -/

/-- Explicit state for the three backends.  `pgConnAvailable` models whether
`get_postgresql_connection` can produce a connection (it raises otherwise).
Relational tables are keyed by (schema, table) as rendered into the SQL text;
the truncate/copy effects model the documented intent of the issued statements. -/
structure World where
  fs : List (String × String)
  s3 : List ((String × String) × String)
  pg : List ((String × String) × List (List String))
  pgConnAvailable : Bool
deriving DecidableEq, Repr

def fsWrite (w : World) (name content : String) : World :=
  { w with fs := assocSet w.fs name content }

def fsRead (w : World) (name : String) : Option String :=
  alookup name w.fs

def fsRemove (w : World) (name : String) : World :=
  { w with fs := w.fs.filter (fun p => p.1 ≠ name) }

def s3Put (w : World) (bucket key content : String) : World :=
  { w with s3 := assocSet w.s3 (bucket, key) content }

def s3Get (w : World) (bucket key : String) : Option String :=
  alookup (bucket, key) w.s3

def pgGetRows (w : World) (schema table : String) : List (List String) :=
  (alookup (schema, table) w.pg).getD []

def pgSetRows (w : World) (schema table : String) (rows : List (List String)) : World :=
  { w with pg := assocSet w.pg (schema, table) rows }

/-- Python `f'...'` rendering of an optional string (None prints as "None"),
as happens when an unset schema or table is interpolated into the SQL text. -/
def pyStrOpt : Option String → String
  | none => "None"
  | some s => s

/-- The `TEMP_FILE_NAME` environment value, an arbitrary fixed name. -/
def TEMP_FILE_NAME : String := "temp_file"

/-! ## helpers.py storage functions -/

/-- `helpers.read_local_file`. -/
def read_local_file (w : World) (file_name : String) : Except Err String :=
  match fsRead w file_name with
  | some c => .ok c
  | none => .error .fileNotFound

/-- `helpers.write_object_to_local_file`. -/
def write_object_to_local_file (w : World) (file_name data_obj : String) : World :=
  fsWrite w file_name data_obj

/-- `helpers.upload_object_to_s3`. -/
def upload_object_to_s3 (w : World) (bucket file_name data_obj : String) : World :=
  s3Put w bucket file_name data_obj

/-- `helpers.download_object_from_s3` followed by `helpers.read_temp_file`
(the in-memory temp buffer pass-through is collapsed to the content). -/
def download_object_from_s3 (w : World) (bucket file_name : String) : Except Err String :=
  match s3Get w bucket file_name with
  | some c => .ok c
  | none => .error .s3KeyNotFound

/-- The file content `DictWriter` produces for a record list (the header row
from the first record's keys, then the rows; empty input yields no content
because the writer is never reached). -/
def csvFileContent : RecordSet → String
  | [] => ""
  | r0 :: rest =>
    csvRenderRow ((r0.map Prod.fst).map csvStrOfKey) ++
      (csvWriteRows (r0.map Prod.fst) (r0 :: rest)).1

/-- `helpers.write_list_of_dicts_to_local_csv_file`: `open(file_name, 'w')`
truncates the file on open; `csv_dict[0]` then raises IndexError on an empty
list; otherwise the header and the rows are written (a row with a key outside
the header raises after the earlier rows are already flushed). -/
def write_list_of_dicts_to_local_csv_file (w : World) (file_name : String)
    (csv_dict : RecordSet) : World × Except Err Unit :=
  let w1 := fsWrite w file_name ""
  match csv_dict with
  | [] => (w1, .error .emptyCsvHeader)
  | r0 :: rest =>
    (fsWrite w1 file_name (csvFileContent (r0 :: rest)),
      match (csvWriteRows (r0.map Prod.fst) (r0 :: rest)).2 with
      | some e => .error e
      | none => .ok ())

/-- `helpers.list_of_dicts_to_csv_bytes`: write the temp csv file, read it
back, remove it. -/
def list_of_dicts_to_csv_bytes (w : World) (csv_dict : RecordSet) :
    World × Except Err String :=
  match write_list_of_dicts_to_local_csv_file w TEMP_FILE_NAME csv_dict with
  | (w1, .error e) => (w1, .error e)
  | (w1, .ok ()) =>
    match fsRead w1 TEMP_FILE_NAME with
    | some content => (fsRemove w1 TEMP_FILE_NAME, .ok content)
    | none => (w1, .error .fileNotFound)

/-! ## helpers.py relational functions -/

/-- `helpers.execute_postgresql_query`: obtain a connection (raising when none
is available), execute the statement's effect, return the fetched rows. -/
def execute_postgresql_query (w : World) (eff : World → World) :
    World × Except Err (List (List String)) :=
  if w.pgConnAvailable then (eff w, .ok []) else (w, .error .noPgConnection)

/-- `helpers.execute_postgresql_copy_expert`, faithful to its control flow:
with a connection the copy is executed and logged, but the trailing `raise`
is unconditional (not guarded by an else / cut off by a return), so the call
raises either way. -/
def execute_postgresql_copy_expert (w : World) (eff : World → World) :
    World × Except Err Unit :=
  if w.pgConnAvailable then (eff w, .error .noPgConnection)
  else (w, .error .noPgConnection)

/-- Rows a `COPY ... FROM STDIN WITH CSV HEADER` ingest appends: the body rows
of the delimited-text payload (the server-side parse is modelled by the same
row grammar for the well-formed payloads this system generates). -/
def pgIngestRows (file_content : String) : List (List String) :=
  (csvReaderRows (pySplitlines file_content)).drop 1

/-- `helpers.execute_postgresql_copy_from`. -/
def execute_postgresql_copy_from (w : World) (schema table : Option String)
    (file_content : String) : World × Except Err Unit :=
  execute_postgresql_copy_expert w (fun w0 =>
    pgSetRows w0 (pyStrOpt schema) (pyStrOpt table)
      (pgGetRows w0 (pyStrOpt schema) (pyStrOpt table) ++ pgIngestRows file_content))

/-- `helpers.execute_postgresql_truncate_table`. -/
def execute_postgresql_truncate_table (w : World) (schema table : Option String) :
    World × Except Err (List (List String)) :=
  execute_postgresql_query w (fun w0 => pgSetRows w0 (pyStrOpt schema) (pyStrOpt table) [])

/-! ## table_transfer.py -/

inductive TransformType where
  | INSERT | UPSERT | TRUNCATE_INSERT
deriving DecidableEq, Repr

/-- The `TableTransfer` object state: the current entries plus the transfer
descriptor fields. -/
structure TableTransfer where
  list_of_dicts_entries : Option RecordSet
  source_s3_bucket : Option String
  source_file_name : Option String
  target_s3_bucket : Option String
  target_file_name : Option String
  source_pg_schema : Option String
  source_pg_table : Option String
  target_pg_schema : Option String
  target_pg_table : Option String
deriving DecidableEq, Repr

/-- Python truthiness of an optional string: `None` and `''` are falsy. -/
def truthyS : Option String → Bool
  | none => false
  | some s => !s.isEmpty

/-- Python truthiness of the entries attribute: `None` and `[]` are falsy. -/
def truthyEntries : Option RecordSet → Bool
  | none => false
  | some l => !l.isEmpty

/-- The drop-empty normalization `[entry for entry in entries if entry]`
(a record, being a Python dict, is truthy iff non-empty). -/
def dropEmpty (l : RecordSet) : RecordSet :=
  l.filter (fun r => !r.isEmpty)

/-- `TableTransfer._check_entries`: raise unless entries is truthy, then (with
`filter_empty`) replace the entries with their drop-empty normalization. -/
def _check_entries (tt : TableTransfer) (filter_empty : Bool) :
    TableTransfer × Except Err Unit :=
  if truthyEntries tt.list_of_dicts_entries then
    (if filter_empty then
      { tt with list_of_dicts_entries := tt.list_of_dicts_entries.map dropEmpty }
    else tt, .ok ())
  else (tt, .error .getEntriesFirst)

/-- The `TableTransfer.list_of_dicts_entries_b` property: `_check_entries()`
(with its normalization side effect) then `json.dumps(entries, indent=2)`. -/
def list_of_dicts_entries_b (tt : TableTransfer) : TableTransfer × Except Err String :=
  match _check_entries tt true with
  | (tt1, .ok ()) => (tt1, .ok (jsonDumps (tt1.list_of_dicts_entries.getD [])))
  | (tt1, .error e) => (tt1, .error e)

/-- `TableTransfer._get_entries_from_csv_or_json`: writes any truthy override
into the descriptor, requires an effective file name, fetches from object
storage when a source bucket is set (local file otherwise), decodes the content
as CSV unconditionally (the latent duplicate decode in the source), then
decodes per the declared source type. -/
def _get_entries_from_csv_or_json (tt : TableTransfer) (w : World)
    (bucket file_name source_type : Option String) :
    TableTransfer × World × Except Err Unit :=
  let tt := if truthyS bucket then { tt with source_s3_bucket := bucket } else tt
  let tt := if truthyS file_name then { tt with source_file_name := file_name } else tt
  if !truthyS tt.source_file_name then (tt, w, .error .noSourceFileName)
  else
    let contentE :=
      if truthyS tt.source_s3_bucket then
        download_object_from_s3 w (tt.source_s3_bucket.getD "") (tt.source_file_name.getD "")
      else read_local_file w (tt.source_file_name.getD "")
    match contentE with
    | .error e => (tt, w, .error e)
    | .ok content =>
      let tt := { tt with list_of_dicts_entries := some (csv_file_content_to_dict content) }
      if source_type = some "CSV" then
        ({ tt with list_of_dicts_entries := some (csv_file_content_to_dict content) }, w, .ok ())
      else if source_type = some "JSON" then
        match jsonLoads content with
        | some entries1 => ({ tt with list_of_dicts_entries := some entries1 }, w, .ok ())
        | none => (tt, w, .error .jsonDecodeError)
      else (tt, w, .error .unexpectedSourceType)

/-- `TableTransfer.get_entries_from_csv`. -/
def get_entries_from_csv (tt : TableTransfer) (w : World) (bucket file_name : Option String) :
    TableTransfer × World × Except Err Unit :=
  _get_entries_from_csv_or_json tt w bucket file_name (some "CSV")

/-- `TableTransfer.get_entries_from_json`. -/
def get_entries_from_json (tt : TableTransfer) (w : World) (bucket file_name : Option String) :
    TableTransfer × World × Except Err Unit :=
  _get_entries_from_csv_or_json tt w bucket file_name (some "JSON")

/-- `TableTransfer.get_entries_from_pg`: the body is `pass` — a silent no-op. -/
def get_entries_from_pg (tt : TableTransfer) (w : World) :
    TableTransfer × World × Except Err Unit :=
  (tt, w, .ok ())

/-- `TableTransfer.upload_entries_to_csv`. -/
def upload_entries_to_csv (tt : TableTransfer) (w : World) (bucket file_name : Option String) :
    TableTransfer × World × Except Err Unit :=
  match _check_entries tt true with
  | (tt1, .error e) => (tt1, w, .error e)
  | (tt1, .ok ()) =>
    let tt2 := if truthyS bucket then { tt1 with target_s3_bucket := bucket } else tt1
    let tt3 := if truthyS file_name then { tt2 with target_file_name := file_name } else tt2
    if !truthyS tt3.target_file_name then (tt3, w, .error .noTargetFileName)
    else if truthyS tt3.target_s3_bucket then
      match list_of_dicts_to_csv_bytes w (tt3.list_of_dicts_entries.getD []) with
      | (w1, .error e) => (tt3, w1, .error e)
      | (w1, .ok content) =>
        (tt3, upload_object_to_s3 w1 (tt3.target_s3_bucket.getD "")
          (tt3.target_file_name.getD "") content, .ok ())
    else
      match write_list_of_dicts_to_local_csv_file w (tt3.target_file_name.getD "")
          (tt3.list_of_dicts_entries.getD []) with
      | (w1, .error e) => (tt3, w1, .error e)
      | (w1, .ok ()) => (tt3, w1, .ok ())

/-- `TableTransfer.upload_entries_to_json` (the byte property runs
`_check_entries` a second time, after the first call already dropped the
empty records). -/
def upload_entries_to_json (tt : TableTransfer) (w : World) (bucket file_name : Option String) :
    TableTransfer × World × Except Err Unit :=
  match _check_entries tt true with
  | (tt1, .error e) => (tt1, w, .error e)
  | (tt1, .ok ()) =>
    let tt2 := if truthyS bucket then { tt1 with target_s3_bucket := bucket } else tt1
    let tt3 := if truthyS file_name then { tt2 with target_file_name := file_name } else tt2
    if !truthyS tt3.target_file_name then (tt3, w, .error .noTargetFileName)
    else
      match list_of_dicts_entries_b tt3 with
      | (tt4, .error e) => (tt4, w, .error e)
      | (tt4, .ok content) =>
        if truthyS tt4.target_s3_bucket then
          (tt4, upload_object_to_s3 w (tt4.target_s3_bucket.getD "")
            (tt4.target_file_name.getD "") content, .ok ())
        else
          (tt4, write_object_to_local_file w (tt4.target_file_name.getD "") content, .ok ())

/-- `TableTransfer.upload_entries_to_pg`: check entries; UPSERT raises
(`raise NotImplemented(...)`, a TypeError at runtime); TRUNCATE_INSERT first
truncates the target table; then the entries are materialized as delimited
text and ingested via the bulk copy path. -/
def upload_entries_to_pg (tt : TableTransfer) (w : World) (transform_type : TransformType) :
    TableTransfer × World × Except Err Unit :=
  match _check_entries tt true with
  | (tt1, .error e) => (tt1, w, .error e)
  | (tt1, .ok ()) =>
    if transform_type = .UPSERT then (tt1, w, .error .raiseNotImplemented)
    else
      let truncStep :=
        if transform_type = .TRUNCATE_INSERT then
          execute_postgresql_truncate_table w tt1.target_pg_schema tt1.target_pg_table
        else (w, .ok [])
      match truncStep with
      | (w1, .error e) => (tt1, w1, .error e)
      | (w1, .ok _) =>
        match list_of_dicts_to_csv_bytes w1 (tt1.list_of_dicts_entries.getD []) with
        | (w2, .error e) => (tt1, w2, .error e)
        | (w2, .ok content) =>
          match execute_postgresql_copy_from w2 tt1.target_pg_schema tt1.target_pg_table content with
          | (w3, r) => (tt1, w3, r)

/-! ## Python equality on records and record sets -/

/-- Python `==` on two dicts: the same lookup result for every key (order is
irrelevant for dict equality). -/
def recordPyEq (a b : Record) : Prop :=
  ∀ k : RKey, alookup k a = alookup k b

/-- Python `==` on two lists of dicts: element-wise dict equality. -/
def recordSetPyEq (a b : RecordSet) : Prop :=
  List.Forall₂ recordPyEq a b

/-! ## Fixtures for concrete runs -/

/-- A descriptor with nothing configured. -/
def tt0 : TableTransfer :=
  ⟨none, none, none, none, none, none, none, none, none⟩

/-- An empty world with a working relational connection. -/
def w0 : World := ⟨[], [], [], true⟩

/-! ## Claims -/

/-- C4: encoding the empty Record Set as a document succeeds and yields the
empty-array payload, while every invocation of the delimited-text encoder on
empty input fails deriving the header (the IndexError the spec calls
`EmptyInputError`), with both the bulk-bytes and the local-file encoder. -/
theorem C4_empty_input_asymmetry :
    jsonDumps [] = "[]" ∧
    (∀ w : World, (list_of_dicts_to_csv_bytes w []).2 = .error .emptyCsvHeader) ∧
    (∀ (w : World) (name : String),
      (write_list_of_dicts_to_local_csv_file w name []).2 = .error .emptyCsvHeader) := by
  refine ⟨rfl, fun w => rfl, fun w name => rfl⟩

/-- C10: reading the document-format byte property is not observation-only —
on a truthy Record Set it succeeds with the document encoding of the
normalized records and, as a side effect, stores the drop-empty normalization
back into the pipeline state. -/
theorem C10_entries_b_normalizes_state (tt : TableTransfer) (l : RecordSet)
    (hl : tt.list_of_dicts_entries = some l) (hne : l ≠ []) :
    list_of_dicts_entries_b tt =
      ({ tt with list_of_dicts_entries := some (dropEmpty l) },
        .ok (jsonDumps (dropEmpty l))) := by
  unfold list_of_dicts_entries_b _check_entries
  simp [truthyEntries, hl, hne]

/-- C10 witness: a concrete read drops the empty record from the stored set. -/
theorem C10_entries_b_normalizes_state_witness :
    list_of_dicts_entries_b
        ⟨some [[], ofPairs [("a", "1")]], none, none, none, none, none, none, none, none⟩ =
      (⟨some [ofPairs [("a", "1")]], none, none, none, none, none, none, none, none⟩,
        .ok "[\n  \x7b\n    \"a\": \"1\"\n  \x7d\n]") := by
  have h := C10_entries_b_normalizes_state
    ⟨some [[], ofPairs [("a", "1")]], none, none, none, none, none, none, none, none⟩
    [[], ofPairs [("a", "1")]] rfl (by simp)
  rw [h]
  rfl

/-- C3: the claim is right and the code is wrong (`execute_postgresql_copy_expert`
raises unconditionally after the copy).  At a concrete state with a working
connection and a configured target, the INSERT save completes the copy — the
table gains exactly the ingested row — and then still raises the
`no connection provided` exception instead of returning success. -/
theorem C3_copy_success_still_raises :
    (upload_entries_to_pg
        ⟨some [ofPairs [("k", "1")]], none, none, none, none, none, none, some "s", some "t"⟩
        ⟨[], [], [(("s", "t"), [])], true⟩ .INSERT).2 =
      (⟨[], [], [(("s", "t"), [["1"]])], true⟩, .error .noPgConnection) := by
  rfl

/-- C8 as stated is false: at a concrete state, loading from the relational
source raises nothing — `get_entries_from_pg` is a silent no-op returning
success with every piece of state unchanged. -/
theorem C8_counterexample :
    get_entries_from_pg tt0 w0 = (tt0, w0, .ok ()) := rfl

/-- C8 amended: `get_entries_from_pg` is a silent no-op (no error, no I/O, no
state change) rather than a failure; `upload_entries_to_pg` with UPSERT does
raise before any database operation — but a TypeError from
`raise NotImplemented(...)`, not an UnsupportedOperationError — leaving the
world unchanged (the entries have still been normalized by the entries check). -/
theorem C8_unimplemented_paths (tt : TableTransfer) (w : World) (l : RecordSet)
    (hl : tt.list_of_dicts_entries = some l) (hne : l ≠ []) :
    get_entries_from_pg tt w = (tt, w, .ok ()) ∧
    upload_entries_to_pg tt w .UPSERT =
      ({ tt with list_of_dicts_entries := some (dropEmpty l) }, w,
        .error .raiseNotImplemented) := by
  constructor
  · rfl
  · unfold upload_entries_to_pg _check_entries
    simp [truthyEntries, hl, hne]

/-- C8 amended witness: the concrete UPSERT run raises with no world change. -/
theorem C8_unimplemented_paths_witness :
    upload_entries_to_pg
        ⟨some [ofPairs [("k", "1")]], none, none, none, none, none, none, some "s", some "t"⟩
        w0 .UPSERT =
      (⟨some [ofPairs [("k", "1")]], none, none, none, none, none, none, some "s", some "t"⟩,
        w0, .error .raiseNotImplemented) := by
  have h := (C8_unimplemented_paths
    ⟨some [ofPairs [("k", "1")]], none, none, none, none, none, none, some "s", some "t"⟩
    w0 [ofPairs [("k", "1")]] rfl (by simp)).2
  rw [h]
  rfl

/-- Configuration fields after a load: the truthy overrides are written back
into the descriptor, every other configuration field is preserved, across all
branches of the loader. -/
theorem loader_config_fields (tt : TableTransfer) (w : World)
    (bucket file_name source_type : Option String) :
    (_get_entries_from_csv_or_json tt w bucket file_name source_type).1.source_s3_bucket =
        (if truthyS bucket then bucket else tt.source_s3_bucket) ∧
    (_get_entries_from_csv_or_json tt w bucket file_name source_type).1.source_file_name =
        (if truthyS file_name then file_name else tt.source_file_name) ∧
    (_get_entries_from_csv_or_json tt w bucket file_name source_type).1.target_s3_bucket =
        tt.target_s3_bucket ∧
    (_get_entries_from_csv_or_json tt w bucket file_name source_type).1.target_file_name =
        tt.target_file_name ∧
    (_get_entries_from_csv_or_json tt w bucket file_name source_type).1.target_pg_schema =
        tt.target_pg_schema ∧
    (_get_entries_from_csv_or_json tt w bucket file_name source_type).1.target_pg_table =
        tt.target_pg_table := by
  unfold _get_entries_from_csv_or_json
  repeat' split <;> (try subst_vars) <;> (first | simp_all | rfl | skip)

/-- Configuration fields after a save to csv with a truthy Record Set: the
truthy overrides are written back, every other configuration field is
preserved, across all branches. -/
theorem upload_csv_config_fields (tt : TableTransfer) (w : World)
    (bucket file_name : Option String)
    (hres : truthyEntries tt.list_of_dicts_entries = true) :
    (upload_entries_to_csv tt w bucket file_name).1.target_s3_bucket =
        (if truthyS bucket then bucket else tt.target_s3_bucket) ∧
    (upload_entries_to_csv tt w bucket file_name).1.target_file_name =
        (if truthyS file_name then file_name else tt.target_file_name) ∧
    (upload_entries_to_csv tt w bucket file_name).1.source_s3_bucket =
        tt.source_s3_bucket ∧
    (upload_entries_to_csv tt w bucket file_name).1.source_file_name =
        tt.source_file_name := by
  unfold upload_entries_to_csv _check_entries
  rw [if_pos hres]
  repeat' split <;> (try subst_vars) <;> (first | simp_all | rfl | skip)

/-- C9 as stated is false: a concrete load with an explicit bucket override
leaves the descriptor durably changed — after the call the configured source
bucket is the override, no longer the configured value. -/
theorem C9_counterexample :
    (get_entries_from_csv
        ⟨none, some "b1", some "f", none, none, none, none, none, none⟩
        ⟨[], [(("b2", "f"), "a\r\n1\r\n")], [], true⟩ (some "b2") none).1.source_s3_bucket =
      some "b2" := by
  rfl

/-- C9 amended: an explicit truthy override wins for the call and is persisted
into the descriptor (the configured location is overwritten, not restored);
fields that are not overridden — including the whole opposite side — are
unchanged. -/
theorem C9_override_persists (tt : TableTransfer) (w : World)
    (bucket file_name source_type : Option String)
    (hres : truthyEntries tt.list_of_dicts_entries = true) :
    ((_get_entries_from_csv_or_json tt w bucket file_name source_type).1.source_s3_bucket =
        (if truthyS bucket then bucket else tt.source_s3_bucket) ∧
      (_get_entries_from_csv_or_json tt w bucket file_name source_type).1.source_file_name =
        (if truthyS file_name then file_name else tt.source_file_name) ∧
      (_get_entries_from_csv_or_json tt w bucket file_name source_type).1.target_s3_bucket =
        tt.target_s3_bucket ∧
      (_get_entries_from_csv_or_json tt w bucket file_name source_type).1.target_file_name =
        tt.target_file_name) ∧
    ((upload_entries_to_csv tt w bucket file_name).1.target_s3_bucket =
        (if truthyS bucket then bucket else tt.target_s3_bucket) ∧
      (upload_entries_to_csv tt w bucket file_name).1.target_file_name =
        (if truthyS file_name then file_name else tt.target_file_name) ∧
      (upload_entries_to_csv tt w bucket file_name).1.source_s3_bucket =
        tt.source_s3_bucket ∧
      (upload_entries_to_csv tt w bucket file_name).1.source_file_name =
        tt.source_file_name) := by
  have hload := loader_config_fields tt w bucket file_name source_type
  have hsave := upload_csv_config_fields tt w bucket file_name hres
  exact ⟨⟨hload.1, hload.2.1, hload.2.2.1, hload.2.2.2.1⟩,
    ⟨hsave.1, hsave.2.1, hsave.2.2.1, hsave.2.2.2⟩⟩

/-- C9 amended witness: a concrete call persists the bucket and file overrides
into the descriptor on both the load and the save leg. -/
theorem C9_override_persists_witness :
    ((_get_entries_from_csv_or_json
        ⟨some [ofPairs [("k", "1")]], some "b1", some "f", some "tb", some "tf", none, none,
          none, none⟩
        ⟨[], [(("b2", "f"), "a\r\n1\r\n")], [], true⟩ (some "b2") (some "f2")
        (some "CSV")).1.source_s3_bucket = some "b2") ∧
    ((upload_entries_to_csv
        ⟨some [ofPairs [("k", "1")]], some "b1", some "f", some "tb", some "tf", none, none,
          none, none⟩
        ⟨[], [(("b2", "f"), "a\r\n1\r\n")], [], true⟩ (some "b2") (some "f2")).1.target_file_name
        = some "f2") := by
  have h := C9_override_persists
    ⟨some [ofPairs [("k", "1")]], some "b1", some "f", some "tb", some "tf", none, none,
      none, none⟩
    ⟨[], [(("b2", "f"), "a\r\n1\r\n")], [], true⟩ (some "b2") (some "f2") (some "CSV")
    (by decide)
  exact ⟨h.1.1.trans (by decide), h.2.2.1.trans (by decide)⟩

/-- C5 as stated is false for the relational backend: with no schema and no
table configured, the save performs no configuration check — the run reaches
the database effects (the store now holds rows under the interpolated
`"None"."None"` identifiers) instead of failing with a configuration error
before I/O. -/
theorem C5_counterexample :
    (upload_entries_to_pg
        ⟨some [ofPairs [("k", "1")]], none, none, none, none, none, none, none, none⟩
        w0 .INSERT).2 =
      (⟨[], [], [(("None", "None"), [["1"]])], true⟩, .error .noPgConnection) := by
  rfl

/-- Loads with no effective source file name fail before any I/O. -/
theorem loader_missing_file_name (tt : TableTransfer) (w : World)
    (bucket file_name source_type : Option String)
    (hf : truthyS file_name = false) (h0 : truthyS tt.source_file_name = false) :
    (_get_entries_from_csv_or_json tt w bucket file_name source_type).2 =
      (w, .error .noSourceFileName) ∧
    (_get_entries_from_csv_or_json tt w bucket file_name source_type).1.list_of_dicts_entries =
      tt.list_of_dicts_entries := by
  unfold _get_entries_from_csv_or_json
  simp [hf, h0, apply_ite TableTransfer.source_file_name,
    apply_ite TableTransfer.list_of_dicts_entries]

/-- Saves to csv with no effective target file name fail before any I/O. -/
theorem upload_csv_missing_file_name (tt : TableTransfer) (w : World)
    (bucket file_name : Option String)
    (hres : truthyEntries tt.list_of_dicts_entries = true)
    (hf : truthyS file_name = false) (h0 : truthyS tt.target_file_name = false) :
    (upload_entries_to_csv tt w bucket file_name).2 = (w, .error .noTargetFileName) := by
  unfold upload_entries_to_csv _check_entries
  rw [if_pos hres]
  simp [hf, h0, apply_ite TableTransfer.target_file_name]

/-- Saves to json with no effective target file name fail before any I/O. -/
theorem upload_json_missing_file_name (tt : TableTransfer) (w : World)
    (bucket file_name : Option String)
    (hres : truthyEntries tt.list_of_dicts_entries = true)
    (hf : truthyS file_name = false) (h0 : truthyS tt.target_file_name = false) :
    (upload_entries_to_json tt w bucket file_name).2 = (w, .error .noTargetFileName) := by
  unfold upload_entries_to_json _check_entries
  rw [if_pos hres]
  simp [hf, h0, apply_ite TableTransfer.target_file_name]

/-- C5 amended: for the filesystem and object-storage backends every load and
save with no effective file name fails before any I/O (the world is returned
unchanged and, for loads, the Record Set is untouched); the relational save
performs no such configuration check — with no schema and no table configured
it proceeds to the database effects under the interpolated `None` identifiers. -/
theorem C5_location_guards (tt : TableTransfer) (w : World)
    (bucket file_name source_type : Option String)
    (hres : truthyEntries tt.list_of_dicts_entries = true) :
    (truthyS file_name = false → truthyS tt.source_file_name = false →
      (_get_entries_from_csv_or_json tt w bucket file_name source_type).2 =
        (w, .error .noSourceFileName) ∧
      (_get_entries_from_csv_or_json tt w bucket file_name source_type).1.list_of_dicts_entries =
        tt.list_of_dicts_entries) ∧
    (truthyS file_name = false → truthyS tt.target_file_name = false →
      (upload_entries_to_csv tt w bucket file_name).2 = (w, .error .noTargetFileName) ∧
      (upload_entries_to_json tt w bucket file_name).2 = (w, .error .noTargetFileName)) ∧
    ((upload_entries_to_pg
        ⟨some [ofPairs [("k", "1")]], none, none, none, none, none, none, none, none⟩
        ⟨[], [], [], true⟩ .INSERT).2.1.pg = [(("None", "None"), [["1"]])]) := by
  refine ⟨fun hf h0 => loader_missing_file_name tt w bucket file_name source_type hf h0,
    fun hf h0 => ⟨upload_csv_missing_file_name tt w bucket file_name hres hf h0,
      upload_json_missing_file_name tt w bucket file_name hres hf h0⟩, ?_⟩
  rfl

/-- C5 amended witness: at a concrete state with entries loaded and nothing
configured, the load and the csv save fail before I/O with the respective
missing-name errors. -/
theorem C5_location_guards_witness :
    (_get_entries_from_csv_or_json
        ⟨some [ofPairs [("k", "1")]], none, none, none, none, none, none, none, none⟩
        w0 none none (some "CSV")).2 = (w0, .error .noSourceFileName) ∧
    (upload_entries_to_csv
        ⟨some [ofPairs [("k", "1")]], none, none, none, none, none, none, none, none⟩
        w0 none none).2 = (w0, .error .noTargetFileName) := by
  have h := C5_location_guards
    ⟨some [ofPairs [("k", "1")]], none, none, none, none, none, none, none, none⟩
    w0 none none (some "CSV") (by decide)
  exact ⟨(h.1 (by decide) (by decide)).1, (h.2.1 (by decide) (by decide)).1⟩

/-- C6 as stated is false in the all-records-dropped case: a concrete local
delimited-text save whose Record Set normalizes to empty does fail, but only
after truncating the target file — something was written to the target. -/
theorem C6_counterexample :
    (upload_entries_to_csv ⟨some [[]], none, none, none, some "out", none, none, none, none⟩
        ⟨[("out", "old")], [], [], true⟩ none none).2 =
      (⟨[("out", "")], [], [], true⟩, .error .emptyCsvHeader) := by
  rfl

/-- C6 amended: every save fails when no Record Set is loaded (None or empty,
raising the get-entries-first error with nothing written), and still fails when
all records are dropped by the normalization — but in the latter case the JSON
save raises the get-entries-first error from its second entries check with
nothing written, while the CSV and relational saves fail inside the
delimited-text encoder (the empty-header IndexError) after some writes: the
local CSV save has already truncated the target file, and the relational
TRUNCATE_INSERT save has already truncated the target table. -/
theorem C6_empty_entries_saves (tt : TableTransfer) (w : World)
    (bucket file_name : Option String) :
    (truthyEntries tt.list_of_dicts_entries = false →
      upload_entries_to_csv tt w bucket file_name = (tt, w, .error .getEntriesFirst) ∧
      upload_entries_to_json tt w bucket file_name = (tt, w, .error .getEntriesFirst) ∧
      (∀ ty : TransformType, upload_entries_to_pg tt w ty = (tt, w, .error .getEntriesFirst))) ∧
    (∀ l : RecordSet, tt.list_of_dicts_entries = some l → l ≠ [] → dropEmpty l = [] →
      (truthyS (if truthyS file_name then file_name else tt.target_file_name) = true →
        (upload_entries_to_json tt w bucket file_name).2 = (w, .error .getEntriesFirst)) ∧
      (truthyS (if truthyS file_name then file_name else tt.target_file_name) = true →
          truthyS bucket = false → truthyS tt.target_s3_bucket = false →
        (upload_entries_to_csv tt w bucket file_name).2 =
          (fsWrite w ((if truthyS file_name then file_name else tt.target_file_name).getD "") "",
            .error .emptyCsvHeader)) ∧
      ((upload_entries_to_pg tt w .INSERT).2 =
        (fsWrite w TEMP_FILE_NAME "", .error .emptyCsvHeader)) ∧
      (w.pgConnAvailable = true →
        (upload_entries_to_pg tt w .TRUNCATE_INSERT).2 =
          (fsWrite (pgSetRows w (pyStrOpt tt.target_pg_schema) (pyStrOpt tt.target_pg_table) [])
            TEMP_FILE_NAME "", .error .emptyCsvHeader))) := by
  constructor
  · intro h
    unfold upload_entries_to_csv upload_entries_to_json upload_entries_to_pg _check_entries
    rw [if_neg (by simp [h])]
    exact ⟨rfl, rfl, fun ty => rfl⟩
  · intro l hl hne hdrop
    have hres : truthyEntries tt.list_of_dicts_entries = true := by
      simp [truthyEntries, hl, hne]
    refine ⟨?_, ?_, ?_, ?_⟩
    · intro hf
      unfold upload_entries_to_json list_of_dicts_entries_b
      unfold _check_entries
      rw [if_pos hres]
      by_cases hfn : truthyS file_name = true <;>
        simp_all [_check_entries, truthyEntries,
          apply_ite TableTransfer.target_file_name,
          apply_ite TableTransfer.list_of_dicts_entries]
    · intro hf hb hsb
      unfold upload_entries_to_csv _check_entries
      rw [if_pos hres]
      by_cases hfn : truthyS file_name = true <;>
        simp_all [apply_ite TableTransfer.target_file_name,
          apply_ite TableTransfer.target_s3_bucket,
          apply_ite TableTransfer.list_of_dicts_entries,
          write_list_of_dicts_to_local_csv_file, list_of_dicts_to_csv_bytes]
    · unfold upload_entries_to_pg _check_entries
      rw [if_pos hres]
      simp [hl, hdrop, write_list_of_dicts_to_local_csv_file, list_of_dicts_to_csv_bytes]
    · intro hconn
      unfold upload_entries_to_pg _check_entries
      rw [if_pos hres]
      simp [hl, hdrop, hconn, write_list_of_dicts_to_local_csv_file,
        list_of_dicts_to_csv_bytes, execute_postgresql_truncate_table,
        execute_postgresql_query]

/-- C6 amended witness: concrete all-empty-after-normalization runs — the JSON
save fails with nothing written, the local CSV save fails having truncated the
target, the TRUNCATE_INSERT save fails having truncated the table. -/
theorem C6_empty_entries_saves_witness :
    (upload_entries_to_json ⟨some [[]], none, none, none, some "out", none, none, none, none⟩
        ⟨[("out", "old")], [], [], true⟩ none none).2 =
      (⟨[("out", "old")], [], [], true⟩, .error .getEntriesFirst) ∧
    (upload_entries_to_pg
        ⟨some [[]], none, none, none, none, none, none, some "s", some "t"⟩
        ⟨[], [], [(("s", "t"), [["1"]])], true⟩ .TRUNCATE_INSERT).2 =
      (⟨[("temp_file", "")], [], [(("s", "t"), [])], true⟩, .error .emptyCsvHeader) := by
  constructor
  · have h := ((C6_empty_entries_saves
      ⟨some [[]], none, none, none, some "out", none, none, none, none⟩
      ⟨[("out", "old")], [], [], true⟩ none none).2 [[]] rfl (by simp) rfl).1 (by decide)
    rw [h]
  · have h := ((C6_empty_entries_saves
      ⟨some [[]], none, none, none, none, none, none, some "s", some "t"⟩
      ⟨[], [], [(("s", "t"), [["1"]])], true⟩ none none).2 [[]] rfl (by simp) rfl).2.2.2 rfl
    rw [h]
    rfl

theorem alookup_map_update {α β : Type} [DecidableEq α] (ps : List (α × β)) (k : α) (v : β)
    (h : (ps.map Prod.fst).contains k = true) :
    alookup k (ps.map (fun p => if p.1 = k then (k, v) else p)) = some v := by
  induction ps with
  | nil => simp at h
  | cons q qs ih =>
    by_cases hq : q.1 = k
    · simp [alookup, hq]
    · simp only [List.map_cons, if_neg hq, alookup, if_neg (Ne.symm hq)]
      apply ih
      simp only [List.map_cons, List.contains_cons, Bool.or_eq_true, beq_iff_eq] at h
      rcases h with h | h
      · exact absurd h.symm hq
      · exact h

theorem alookup_append_new {α β : Type} [DecidableEq α] (ps : List (α × β)) (k : α) (v : β)
    (h : (ps.map Prod.fst).contains k = false) :
    alookup k (ps ++ [(k, v)]) = some v := by
  induction ps with
  | nil => simp [alookup]
  | cons q qs ih =>
    simp only [List.map_cons, List.contains_cons, Bool.or_eq_false_iff, beq_eq_false_iff_ne,
      ne_eq] at h
    simp only [List.cons_append, alookup, if_neg h.1]
    exact ih h.2

theorem alookup_assocSet_self {α β : Type} [DecidableEq α] (l : List (α × β)) (k : α) (v : β) :
    alookup k (assocSet l k v) = some v := by
  unfold assocSet
  split
  · exact alookup_map_update l k v (by assumption)
  · exact alookup_append_new l k v (by rename_i h; simpa using h)

/-- Successful materialization of a non-empty record list as csv bytes: the
temp file is written and removed again, and the content is returned. -/
theorem csv_bytes_ok (w : World) (r0 : Record) (rest : RecordSet)
    (hwr : (csvWriteRows (r0.map Prod.fst) (r0 :: rest)).2 = none) :
    list_of_dicts_to_csv_bytes w (r0 :: rest) =
      (fsRemove (fsWrite (fsWrite w TEMP_FILE_NAME "") TEMP_FILE_NAME
          (csvFileContent (r0 :: rest))) TEMP_FILE_NAME,
        .ok (csvFileContent (r0 :: rest))) := by
  unfold list_of_dicts_to_csv_bytes write_list_of_dicts_to_local_csv_file
  simp only [hwr]
  simp [fsRead, fsWrite, alookup_assocSet_self]

/-- C1: with a loaded Record Set whose normalization is non-empty and writes
cleanly, and a working connection, TRUNCATE_INSERT truncates the target table
and then appends exactly the same ingested rows that INSERT appends; INSERT
appends them after the existing rows (duplicates allowed — the engine performs
no uniqueness check). -/
theorem C1_transform_table_contents (tt : TableTransfer) (w : World) (l : RecordSet)
    (r0 : Record) (rest : RecordSet)
    (hl : tt.list_of_dicts_entries = some l) (hne : l ≠ [])
    (hd : dropEmpty l = r0 :: rest)
    (hwr : (csvWriteRows (r0.map Prod.fst) (r0 :: rest)).2 = none)
    (hconn : w.pgConnAvailable = true) :
    pgGetRows (upload_entries_to_pg tt w .INSERT).2.1
        (pyStrOpt tt.target_pg_schema) (pyStrOpt tt.target_pg_table) =
      pgGetRows w (pyStrOpt tt.target_pg_schema) (pyStrOpt tt.target_pg_table) ++
        pgIngestRows (csvFileContent (r0 :: rest)) ∧
    pgGetRows (upload_entries_to_pg tt w .TRUNCATE_INSERT).2.1
        (pyStrOpt tt.target_pg_schema) (pyStrOpt tt.target_pg_table) =
      pgIngestRows (csvFileContent (r0 :: rest)) := by
  have hres : truthyEntries tt.list_of_dicts_entries = true := by
    simp [truthyEntries, hl, hne]
  constructor
  · unfold upload_entries_to_pg _check_entries
    rw [if_pos hres]
    simp only [hl, hd, Option.map_some', Option.getD_some, ite_true, ite_false,
      show (TransformType.INSERT = TransformType.UPSERT) = False by simp,
      show (TransformType.INSERT = TransformType.TRUNCATE_INSERT) = False by simp]
    rw [csv_bytes_ok _ r0 rest hwr]
    unfold execute_postgresql_copy_from execute_postgresql_copy_expert
    simp [hconn, pgSetRows, pgGetRows, fsWrite, fsRemove, alookup_assocSet_self]
  · unfold upload_entries_to_pg _check_entries
    rw [if_pos hres]
    simp only [hl, hd, Option.map_some', Option.getD_some, ite_true, ite_false,
      show (TransformType.TRUNCATE_INSERT = TransformType.UPSERT) = False by simp]
    unfold execute_postgresql_truncate_table execute_postgresql_query
    rw [if_pos hconn]
    simp only
    rw [csv_bytes_ok _ r0 rest hwr]
    unfold execute_postgresql_copy_from execute_postgresql_copy_expert
    simp [hconn, pgSetRows, pgGetRows, fsWrite, fsRemove, alookup_assocSet_self]

/-- C1 witness: with target table holding rows a, b and the incoming Record Set
holding b, c, INSERT ends with a, b, b, c (duplicate kept) and TRUNCATE_INSERT
ends with exactly b, c. -/
theorem C1_transform_table_contents_witness :
    pgGetRows (upload_entries_to_pg
        ⟨some [ofPairs [("k", "2")], ofPairs [("k", "3")]], none, none, none, none, none, none,
          some "s", some "t"⟩
        ⟨[], [], [(("s", "t"), [["1"], ["2"]])], true⟩ .INSERT).2.1 "s" "t" =
      [["1"], ["2"], ["2"], ["3"]] ∧
    pgGetRows (upload_entries_to_pg
        ⟨some [ofPairs [("k", "2")], ofPairs [("k", "3")]], none, none, none, none, none, none,
          some "s", some "t"⟩
        ⟨[], [], [(("s", "t"), [["1"], ["2"]])], true⟩ .TRUNCATE_INSERT).2.1 "s" "t" =
      [["2"], ["3"]] := by
  have h := C1_transform_table_contents
    ⟨some [ofPairs [("k", "2")], ofPairs [("k", "3")]], none, none, none, none, none, none,
      some "s", some "t"⟩
    ⟨[], [], [(("s", "t"), [["1"], ["2"]])], true⟩
    [ofPairs [("k", "2")], ofPairs [("k", "3")]]
    (ofPairs [("k", "2")]) [ofPairs [("k", "3")]] rfl (by simp) rfl rfl rfl
  exact ⟨h.1.trans rfl, h.2.trans rfl⟩

/-! ## Round-trip machinery: `str.splitlines` on writer output -/

theorem splitlinesAux_plain (line : List Char) (rest cur : List Char)
    (h : ∀ c ∈ line, isPyLineBoundary c = false) :
    splitlinesAux (line ++ '\r' :: '\n' :: rest) cur =
      String.mk (cur.reverse ++ line) :: splitlinesAux rest [] := by
  induction line generalizing cur with
  | nil => simp [splitlinesAux]
  | cons c l ih =>
    have hc : isPyLineBoundary c = false := h c (by simp)
    have hcr : c ≠ '\r' := by
      intro hh
      rw [hh] at hc
      simp [isPyLineBoundary] at hc
    rw [List.cons_append, splitlinesAux.eq_def]
    simp [hcr, hc]
    rw [ih (c :: cur) (fun x hx => h x (by simp [hx]))]
    simp

theorem splitlinesAux_last (line : List Char) (cur : List Char)
    (h : ∀ c ∈ line, isPyLineBoundary c = false) (hne : cur.reverse ++ line ≠ []) :
    splitlinesAux line cur = [String.mk (cur.reverse ++ line)] := by
  induction line generalizing cur with
  | nil =>
    have : ¬ cur.isEmpty = true := by
      simp only [List.isEmpty_iff]
      intro hh
      rw [hh] at hne
      simp at hne
    simp [splitlinesAux, this]
  | cons c l ih =>
    have hc : isPyLineBoundary c = false := h c (by simp)
    have hcr : c ≠ '\r' := by
      intro hh
      rw [hh] at hc
      simp [isPyLineBoundary] at hc
    rw [splitlinesAux.eq_def]
    simp [hcr, hc]
    rw [ih (c :: cur) (fun x hx => h x (by simp [hx])) (by simp)]
    simp

theorem splitlinesAux_rows (liness : List (List Char))
    (h : ∀ l ∈ liness, ∀ c ∈ l, isPyLineBoundary c = false) :
    splitlinesAux (liness.flatMap (fun l => l ++ ['\r', '\n'])) [] =
      liness.map String.mk := by
  induction liness with
  | nil => simp [splitlinesAux]
  | cons l ls ih =>
    rw [List.flatMap_cons, List.append_assoc]
    rw [show (['\r', '\n'] ++ ls.flatMap (fun l => l ++ ['\r', '\n'])) =
        '\r' :: '\n' :: ls.flatMap (fun l => l ++ ['\r', '\n']) from rfl]
    rw [splitlinesAux_plain l _ [] (h l (by simp))]
    rw [ih (fun x hx => h x (by simp [hx]))]
    simp

/-! ## Round-trip machinery: the reader automaton on writer rows -/

theorem csvStep_startRecord (f : List Char) (row : List String) (c : Char) :
    csvStep ⟨.startRecord, f, row⟩ c = csvStep ⟨.startField, f, row⟩ c := rfl

theorem csvRunLine_startRecord (cs : List Char) (f : List Char) (row : List String)
    (h : cs ≠ []) :
    csvRunLine cs ⟨.startRecord, f, row⟩ = csvRunLine cs ⟨.startField, f, row⟩ := by
  cases cs with
  | nil => cases h rfl
  | cons c cs => simp [csvRunLine, csvStep_startRecord]

theorem csvRunLine_unquoted (l : List Char) (rest : List Char) (f : List Char)
    (row : List String) (h : ∀ c ∈ l, c ≠ ',' ∧ c ≠ '"') :
    csvRunLine (l ++ rest) ⟨.inField, f, row⟩ =
      csvRunLine rest ⟨.inField, l.reverse ++ f, row⟩ := by
  induction l generalizing f with
  | nil => simp
  | cons c l ih =>
    have hc := h c (by simp)
    rw [List.cons_append]
    show csvRunLine (l ++ rest) (csvStep ⟨.inField, f, row⟩ c) = _
    rw [show csvStep ⟨.inField, f, row⟩ c = ⟨.inField, c :: f, row⟩ by
      simp [csvStep, hc.1]]
    rw [ih (c :: f) (fun x hx => h x (by simp [hx]))]
    simp

theorem csvRunLine_dblQuote (l : List Char) (rest : List Char) (f : List Char)
    (row : List String) :
    csvRunLine (dblQuote l ++ rest) ⟨.inQuoted, f, row⟩ =
      csvRunLine rest ⟨.inQuoted, l.reverse ++ f, row⟩ := by
  induction l generalizing f with
  | nil => simp [dblQuote]
  | cons c l ih =>
    by_cases hc : c = '"'
    · subst hc
      rw [show dblQuote ('"' :: l) = '"' :: '"' :: dblQuote l from by simp [dblQuote]]
      rw [List.cons_append, List.cons_append]
      show csvRunLine ('"' :: (dblQuote l ++ rest)) (csvStep ⟨.inQuoted, f, row⟩ '"') = _
      rw [show csvStep ⟨.inQuoted, f, row⟩ '"' = ⟨.quoteInQuoted, f, row⟩ from by
        simp [csvStep]]
      show csvRunLine (dblQuote l ++ rest) (csvStep ⟨.quoteInQuoted, f, row⟩ '"') = _
      rw [show csvStep ⟨.quoteInQuoted, f, row⟩ '"' = ⟨.inQuoted, '"' :: f, row⟩ from by
        simp [csvStep]]
      rw [ih ('"' :: f)]
      simp
    · rw [show dblQuote (c :: l) = c :: dblQuote l from by simp [dblQuote, hc]]
      rw [List.cons_append]
      show csvRunLine (dblQuote l ++ rest) (csvStep ⟨.inQuoted, f, row⟩ c) = _
      rw [show csvStep ⟨.inQuoted, f, row⟩ c = ⟨.inQuoted, c :: f, row⟩ from by
        simp [csvStep, hc]]
      rw [ih (c :: f)]
      simp

/-- The automaton state in which a rendered cell leaves the parser. -/
def cellEndSt (cell : String) : CsvSt :=
  if csvNeedsQuote cell then .quoteInQuoted
  else if cell = "" then .startField else .inField

theorem csvRunLine_cell (cell : String) (rest : List Char) (row : List String) :
    csvRunLine ((csvRenderField cell).data ++ rest) ⟨.startField, [], row⟩ =
      csvRunLine rest ⟨cellEndSt cell, cell.data.reverse, row⟩ := by
  by_cases hq : csvNeedsQuote cell
  · rw [show (csvRenderField cell).data = '"' :: (dblQuote cell.data ++ ['"']) from by
      simp [csvRenderField, hq, csvQuote]]
    rw [List.cons_append]
    show csvRunLine ((dblQuote cell.data ++ ['"']) ++ rest)
      (csvStep ⟨.startField, [], row⟩ '"') = _
    rw [show csvStep ⟨.startField, [], row⟩ '"' = ⟨.inQuoted, [], row⟩ from by
      simp [csvStep]]
    rw [List.append_assoc, csvRunLine_dblQuote cell.data _ [] row, List.append_nil]
    rw [show (['"'] ++ rest) = '"' :: rest from rfl]
    show csvRunLine rest (csvStep ⟨.inQuoted, cell.data.reverse, row⟩ '"') = _
    rw [show csvStep ⟨.inQuoted, cell.data.reverse, row⟩ '"' =
        ⟨.quoteInQuoted, cell.data.reverse, row⟩ from by simp [csvStep]]
    rw [cellEndSt, if_pos hq]
  · have hplain : ∀ c ∈ cell.data, c ≠ ',' ∧ c ≠ '"' := by
      intro c hc
      constructor <;> intro hh <;> subst hh <;> apply hq <;>
        · simp only [csvNeedsQuote, List.any_eq_true]
          exact ⟨_, hc, by simp⟩
    rw [show csvRenderField cell = cell from by simp [csvRenderField, hq]]
    match hcell : cell.data with
    | [] =>
      have : cell = "" := by
        cases cell
        simp_all
      rw [this]
      simp [cellEndSt, csvNeedsQuote]
    | c :: l =>
      have hc : c ≠ ',' ∧ c ≠ '"' := by
        apply hplain
        rw [hcell]
        simp
      rw [List.cons_append]
      show csvRunLine (l ++ rest) (csvStep ⟨.startField, [], row⟩ c) = _
      rw [show csvStep ⟨.startField, [], row⟩ c = ⟨.inField, [c], row⟩ from by
        simp [csvStep, hc.1, hc.2]]
      rw [csvRunLine_unquoted l rest [c] row (by
        intro x hx
        apply hplain
        rw [hcell]
        simp [hx])]
      have hcellne : cell ≠ "" := by
        intro hh
        rw [hh] at hcell
        simp at hcell
      rw [cellEndSt, if_neg hq, if_neg hcellne]
      simp [List.reverse_cons]

theorem csvJoinComma_cons_cons_data (a b : String) (l : List String) :
    (csvJoinComma (a :: b :: l)).data = a.data ++ ',' :: (csvJoinComma (b :: l)).data := by
  rw [show csvJoinComma (a :: b :: l) = (a ++ ",") ++ csvJoinComma (b :: l) from rfl]
  simp [String.data_append]

theorem csvStep_comma_after_cell (cell : String) (row : List String) :
    csvStep ⟨cellEndSt cell, cell.data.reverse, row⟩ ',' =
      ⟨.startField, [], cell :: row⟩ := by
  unfold cellEndSt csvStep
  by_cases hq : csvNeedsQuote cell
  · simp [hq]
  · by_cases he : cell = ""
    · subst he
      simp [csvNeedsQuote]
    · simp [hq, he]

theorem csvLineEnd_after_cell (cell : String) (row : List String) :
    csvLineEnd ⟨cellEndSt cell, cell.data.reverse, row⟩ =
      (some ((cell :: row).reverse), csvFreshAcc) := by
  unfold cellEndSt csvLineEnd
  by_cases hq : csvNeedsQuote cell
  · simp [hq]
  · by_cases he : cell = ""
    · subst he
      simp [csvNeedsQuote]
    · simp [hq, he]

theorem csvRow_cells (cells : List String) (row : List String) (h : cells ≠ []) :
    csvLineEnd (csvRunLine (csvJoinComma (cells.map csvRenderField)).data
        ⟨.startField, [], row⟩) =
      (some (row.reverse ++ cells), csvFreshAcc) := by
  induction cells generalizing row with
  | nil => cases h rfl
  | cons c cs ih =>
    cases cs with
    | nil =>
      rw [show csvJoinComma ([c].map csvRenderField) = csvRenderField c from rfl]
      rw [show (csvRenderField c).data = (csvRenderField c).data ++ [] from by simp]
      rw [csvRunLine_cell c [] row]
      rw [show csvRunLine [] ⟨cellEndSt c, c.data.reverse, row⟩ =
          ⟨cellEndSt c, c.data.reverse, row⟩ from rfl]
      rw [csvLineEnd_after_cell]
      simp
    | cons c2 cs2 =>
      rw [show (c :: c2 :: cs2).map csvRenderField =
          csvRenderField c :: csvRenderField c2 :: cs2.map csvRenderField from rfl]
      rw [csvJoinComma_cons_cons_data]
      rw [show csvRenderField c2 :: cs2.map csvRenderField =
          (c2 :: cs2).map csvRenderField from rfl]
      rw [csvRunLine_cell c _ row]
      rw [show csvRunLine (',' :: (csvJoinComma ((c2 :: cs2).map csvRenderField)).data)
            ⟨cellEndSt c, c.data.reverse, row⟩ =
          csvRunLine (csvJoinComma ((c2 :: cs2).map csvRenderField)).data
            (csvStep ⟨cellEndSt c, c.data.reverse, row⟩ ',') from rfl]
      rw [csvStep_comma_after_cell]
      rw [ih (c :: row) (by simp)]
      simp

theorem csvRenderField_data_ne_nil (cell : String) (h : cell ≠ "") :
    (csvRenderField cell).data ≠ [] := by
  unfold csvRenderField
  split
  · simp [csvQuote]
  · intro hh
    apply h
    cases cell
    simp_all

theorem csvLine_parses (cells : List String) (h : cells ≠ []) :
    csvLineEnd (csvRunLine (csvLineStr cells).data csvFreshAcc) =
      (some cells, csvFreshAcc) := by
  by_cases hs : cells = [""]
  · subst hs
    rfl
  · rw [csvLineStr, if_neg hs]
    have hne : (csvJoinComma (cells.map csvRenderField)).data ≠ [] := by
      match cells, h with
      | [c], _ =>
        have hc : c ≠ "" := by
          intro hh
          exact hs (by rw [hh])
        exact csvRenderField_data_ne_nil c hc
      | c :: c2 :: cs2, _ =>
        rw [show (c :: c2 :: cs2).map csvRenderField =
            csvRenderField c :: csvRenderField c2 :: cs2.map csvRenderField from rfl]
        rw [csvJoinComma_cons_cons_data]
        simp
    rw [show csvRunLine (csvJoinComma (cells.map csvRenderField)).data csvFreshAcc =
        csvRunLine (csvJoinComma (cells.map csvRenderField)).data ⟨.startField, [], []⟩ from
      csvRunLine_startRecord _ _ _ hne]
    rw [csvRow_cells cells [] h]
    simp

theorem csvReadAux_mkLines (rows : List (List String)) (h : ∀ r ∈ rows, r ≠ []) :
    csvReadAux (rows.map (fun cells => String.mk (csvLineStr cells).data)) csvFreshAcc =
      rows := by
  induction rows with
  | nil => rfl
  | cons r rs ih =>
    rw [List.map_cons]
    rw [show csvReadAux
          (String.mk (csvLineStr r).data ::
            rs.map (fun cells => String.mk (csvLineStr cells).data)) csvFreshAcc =
        (match csvLineEnd (csvRunLine (csvLineStr r).data csvFreshAcc) with
          | (some row, fresh) =>
            row :: csvReadAux (rs.map (fun cells => String.mk (csvLineStr cells).data)) fresh
          | (none, aCont) =>
            csvReadAux (rs.map (fun cells => String.mk (csvLineStr cells).data)) aCont)
        from rfl]
    rw [csvLine_parses r (h r (by simp))]
    rw [show (match (some r, csvFreshAcc) with
        | (some row, fresh) =>
          row :: csvReadAux (rs.map (fun cells => String.mk (csvLineStr cells).data)) fresh
        | (none, aCont) =>
          csvReadAux (rs.map (fun cells => String.mk (csvLineStr cells).data)) aCont) =
        r :: csvReadAux (rs.map (fun cells => String.mk (csvLineStr cells).data)) csvFreshAcc
        from rfl]
    rw [ih (fun x hx => h x (by simp [hx]))]

theorem csvWriteRows_clean (fieldnames : List RKey) (rows : RecordSet)
    (h : ∀ r ∈ rows, hasExtraKey fieldnames r = false) :
    (csvWriteRows fieldnames rows).2 = none ∧
    (csvWriteRows fieldnames rows).1.data =
      (rows.map (dictToRow fieldnames)).flatMap
        (fun cells => (csvLineStr cells).data ++ ['\r', '\n']) := by
  induction rows with
  | nil => exact ⟨rfl, rfl⟩
  | cons r rs ih =>
    have hr := h r (by simp)
    have ihh := ih (fun x hx => h x (by simp [hx]))
    constructor
    · simp only [csvWriteRows, hr, Bool.false_eq_true, if_false]
      exact ihh.1
    · simp only [csvWriteRows, hr, Bool.false_eq_true, if_false, List.map_cons,
        List.flatMap_cons]
      rw [show csvRenderRow (dictToRow fieldnames r) =
          csvLineStr (dictToRow fieldnames r) ++ "\r\n" from rfl]
      rw [String.data_append, String.data_append, ihh.2]

theorem csvFileContent_data (r0 : Record) (rest : RecordSet)
    (h : ∀ r ∈ r0 :: rest, hasExtraKey (r0.map Prod.fst) r = false) :
    (csvFileContent (r0 :: rest)).data =
      (((r0.map Prod.fst).map csvStrOfKey) ::
          (r0 :: rest).map (dictToRow (r0.map Prod.fst))).flatMap
        (fun cells => (csvLineStr cells).data ++ ['\r', '\n']) := by
  rw [show csvFileContent (r0 :: rest) =
      csvRenderRow ((r0.map Prod.fst).map csvStrOfKey) ++
        (csvWriteRows (r0.map Prod.fst) (r0 :: rest)).1 from rfl]
  rw [List.flatMap_cons]
  rw [show csvRenderRow ((r0.map Prod.fst).map csvStrOfKey) =
      csvLineStr ((r0.map Prod.fst).map csvStrOfKey) ++ "\r\n" from rfl]
  rw [String.data_append, String.data_append]
  rw [(csvWriteRows_clean (r0.map Prod.fst) (r0 :: rest) h).2]

theorem mem_dblQuote {c : Char} {l : List Char} (h : c ∈ dblQuote l) : c ∈ l ∨ c = '"' := by
  unfold dblQuote at h
  rw [List.mem_flatMap] at h
  obtain ⟨x, hx, hc⟩ := h
  by_cases hxq : x = '"'
  · subst hxq
    simp at hc
    exact Or.inr hc
  · simp [hxq] at hc
    subst hc
    exact Or.inl hx

theorem mem_renderField {c : Char} {s : String} (h : c ∈ (csvRenderField s).data) :
    c ∈ s.data ∨ c = '"' := by
  unfold csvRenderField at h
  split at h
  · rw [show (csvQuote s).data = '"' :: (dblQuote s.data ++ ['"']) from rfl] at h
    simp at h
    rcases h with h | h | h
    · exact Or.inr h
    · exact mem_dblQuote h
    · exact Or.inr h
  · exact Or.inl h

theorem mem_joinComma {c : Char} {ss : List String} (h : c ∈ (csvJoinComma ss).data) :
    (∃ s ∈ ss, c ∈ s.data) ∨ c = ',' := by
  induction ss with
  | nil => simp [csvJoinComma] at h
  | cons a l ih =>
    cases l with
    | nil =>
      exact Or.inl ⟨a, by simp, h⟩
    | cons b l2 =>
      rw [csvJoinComma_cons_cons_data] at h
      simp only [List.mem_append, List.mem_cons] at h
      rcases h with h | h | h
      · exact Or.inl ⟨a, by simp, h⟩
      · exact Or.inr h
      · rcases ih h with ⟨s, hs, hcs⟩ | h'
        · exact Or.inl ⟨s, by simp [hs], hcs⟩
        · exact Or.inr h'

theorem mem_lineStr {c : Char} {cells : List String} (h : c ∈ (csvLineStr cells).data) :
    (∃ s ∈ cells, c ∈ s.data) ∨ c = '"' ∨ c = ',' := by
  unfold csvLineStr at h
  split at h
  · simp at h
    exact Or.inr (Or.inl h)
  · rcases mem_joinComma h with ⟨s, hs, hcs⟩ | h'
    · rw [List.mem_map] at hs
      obtain ⟨x, hx, rfl⟩ := hs
      rcases mem_renderField hcs with h' | h'
      · exact Or.inl ⟨x, hx, h'⟩
      · exact Or.inr (Or.inl h')
    · exact Or.inr (Or.inr h')

theorem lineStr_boundary_free (cells : List String)
    (h : ∀ s ∈ cells, ∀ c ∈ s.data, isPyLineBoundary c = false) :
    ∀ c ∈ (csvLineStr cells).data, isPyLineBoundary c = false := by
  intro c hc
  rcases mem_lineStr hc with ⟨s, hs, hcs⟩ | h' | h'
  · exact h s hs c hcs
  · subst h'
    rfl
  · subst h'
    rfl

theorem pySplitlines_rows_content (rowsCells : List (List String))
    (h : ∀ cells ∈ rowsCells, ∀ s ∈ cells, ∀ c ∈ s.data, isPyLineBoundary c = false) :
    pySplitlines (String.mk (rowsCells.flatMap
        (fun cells => (csvLineStr cells).data ++ ['\r', '\n']))) =
      rowsCells.map (fun cells => String.mk (csvLineStr cells).data) := by
  unfold pySplitlines
  rw [show (String.mk (rowsCells.flatMap
      (fun cells => (csvLineStr cells).data ++ ['\r', '\n']))).data =
    rowsCells.flatMap (fun cells => (csvLineStr cells).data ++ ['\r', '\n']) from rfl]
  rw [show rowsCells.flatMap (fun cells => (csvLineStr cells).data ++ ['\r', '\n']) =
      (rowsCells.map (fun cells => (csvLineStr cells).data)).flatMap
        (fun l => l ++ ['\r', '\n']) from by
    rw [List.flatMap_map]]
  rw [splitlinesAux_rows _ (by
    intro l hl
    rw [List.mem_map] at hl
    obtain ⟨cells, hcells, rfl⟩ := hl
    exact lineStr_boundary_free cells (h cells hcells))]
  rw [List.map_map]
  rfl

/-! ## Round-trip machinery: Python dicts -/

theorem alookup_eq_none_iff {α β : Type} [DecidableEq α] (l : List (α × β)) (k : α) :
    alookup k l = none ↔ k ∉ l.map Prod.fst := by
  induction l with
  | nil => simp [alookup]
  | cons p ps ih =>
    by_cases hp : k = p.1
    · simp [alookup, hp]
    · simp [alookup, hp, ih]

theorem alookup_isSome_of_mem {α β : Type} [DecidableEq α] (l : List (α × β)) (k : α)
    (h : k ∈ l.map Prod.fst) : ∃ v, alookup k l = some v := by
  induction l with
  | nil => simp at h
  | cons p ps ih =>
    by_cases hp : k = p.1
    · exact ⟨p.2, by simp [alookup, hp]⟩
    · simp only [alookup, if_neg hp]
      apply ih
      simp only [List.map_cons, List.mem_cons] at h
      rcases h with h | h
      · exact absurd h hp
      · exact h

theorem alookup_mem_values {α β : Type} [DecidableEq α] (l : List (α × β)) (k : α) (v : β)
    (h : alookup k l = some v) : v ∈ l.map Prod.snd := by
  induction l with
  | nil => simp [alookup] at h
  | cons p ps ih =>
    by_cases hp : k = p.1
    · simp [alookup, hp] at h
      simp [← h]
    · simp only [alookup, if_neg hp] at h
      simp [ih h]

theorem alookup_mapKeys (l : List String) (g : String → CVal) (k : RKey) :
    alookup k (l.map (fun n => ((some n : RKey), g n))) =
      (match k with
       | none => none
       | some n => if n ∈ l then some (g n) else none) := by
  induction l with
  | nil => cases k <;> simp [alookup]
  | cons m ms ih =>
    cases k with
    | none => simpa [alookup] using ih
    | some n =>
      by_cases hn : n = m
      · simp [alookup, hn]
      · simpa [alookup, hn] using ih

theorem alookup_ofPairs (pi : List (String × String)) (k : RKey) :
    alookup k (ofPairs pi) =
      (match k with
       | none => none
       | some n => (alookup n pi).map CVal.s) := by
  induction pi with
  | nil => cases k <;> simp [alookup, ofPairs]
  | cons p ps ih =>
    cases k with
    | none => simpa [alookup, ofPairs] using ih
    | some n =>
      by_cases hn : n = p.1
      · simp [alookup, ofPairs, hn]
      · simpa [alookup, ofPairs, hn] using ih

theorem assocSet_not_mem {α β : Type} [DecidableEq α] (d : List (α × β)) (k : α) (v : β)
    (h : k ∉ d.map Prod.fst) : assocSet d k v = d ++ [(k, v)] := by
  unfold assocSet
  rw [if_neg (by simpa using h)]

theorem pyDictFold_disjoint (ps : List (RKey × CVal)) :
    ∀ d : Record, (∀ p ∈ ps, p.1 ∉ d.map Prod.fst) → (ps.map Prod.fst).Nodup →
      ps.foldl (fun d p => assocSet d p.1 p.2) d = d ++ ps := by
  induction ps with
  | nil =>
    intro d _ _
    simp
  | cons p ps ih =>
    intro d hd hnodup
    rw [List.foldl_cons, assocSet_not_mem d p.1 p.2 (hd p (by simp))]
    rw [ih (d ++ [(p.1, p.2)]) ?_ ?_]
    · simp
    · intro q hq
      simp only [List.map_append, List.mem_append, List.map_cons, List.map_nil,
        List.mem_singleton]
      rintro (hq1 | hq1)
      · exact hd q (by simp [hq]) hq1
      · rw [List.map_cons, List.nodup_cons] at hnodup
        exact hnodup.1 (by rw [← hq1]; exact List.mem_map_of_mem Prod.fst hq)
    · rw [List.map_cons, List.nodup_cons] at hnodup
      exact hnodup.2

theorem pyDictOfPairs_nodup (ps : List (RKey × CVal)) (h : (ps.map Prod.fst).Nodup) :
    pyDictOfPairs ps = ps := by
  unfold pyDictOfPairs
  rw [pyDictFold_disjoint ps [] (by simp) h]
  simp

theorem rowRecord_eqLen (fns row : List String) (hlen : row.length = fns.length) :
    rowRecord fns row =
      pyDictOfPairs ((List.zip fns row).map (fun p => ((some p.1 : RKey), CVal.s p.2))) := by
  unfold rowRecord
  simp [hlen]

theorem dictToRow_ofPairs (p0names : List String) (pi : List (String × String)) :
    dictToRow (p0names.map (fun n => (some n : RKey))) (ofPairs pi) =
      p0names.map (fun n => (alookup n pi).getD "") := by
  unfold dictToRow
  rw [List.map_map]
  apply List.map_congr_left
  intro n _
  simp only [Function.comp]
  rw [alookup_ofPairs]
  cases h : alookup n pi <;> simp [h, cellString]

theorem hasExtraKey_ofPairs_false (p0names : List String) (pi : List (String × String))
    (h : ∀ n ∈ pi.map Prod.fst, n ∈ p0names) :
    hasExtraKey (p0names.map (fun n => (some n : RKey))) (ofPairs pi) = false := by
  unfold hasExtraKey
  rw [List.any_eq_false]
  intro p hp
  simp only [ofPairs, List.mem_map] at hp
  obtain ⟨q, hq, rfl⟩ := hp
  simp only [Bool.not_eq_true', Bool.not_eq_false]
  have hq1 : q.1 ∈ p0names := h q.1 (List.mem_map_of_mem Prod.fst hq)
  have hq2 : (some q.1 : RKey) ∈ p0names.map (fun n => (some n : RKey)) :=
    List.mem_map_of_mem _ hq1
  simpa using hq2

theorem decoded_record_pyEq (p0names : List String) (pi : List (String × String))
    (hmem : ∀ n, n ∈ p0names ↔ n ∈ pi.map Prod.fst) (hnodup : p0names.Nodup) :
    recordPyEq (rowRecord p0names (p0names.map (fun n => (alookup n pi).getD "")))
      (ofPairs pi) := by
  rw [rowRecord_eqLen _ _ (by simp)]
  rw [show List.zip p0names (p0names.map (fun n => (alookup n pi).getD "")) =
      p0names.map (fun n => (n, (alookup n pi).getD "")) from by
    rw [show p0names.zip (p0names.map fun n => (alookup n pi).getD "") =
        (p0names.map id).zip (p0names.map fun n => (alookup n pi).getD "") from by simp]
    rw [List.zip_map']
    rfl]
  rw [List.map_map]
  rw [pyDictOfPairs_nodup _ (by
    rw [List.map_map]
    exact hnodup.map (fun a b hab => by simpa using hab))]
  intro k
  rw [show p0names.map ((fun p => ((some p.1 : RKey), CVal.s p.2)) ∘
      fun n => (n, (alookup n pi).getD "")) =
    p0names.map (fun n => ((some n : RKey), CVal.s ((alookup n pi).getD ""))) from by
    simp [Function.comp]]
  rw [alookup_mapKeys p0names (fun n => CVal.s ((alookup n pi).getD "")) k]
  rw [alookup_ofPairs]
  cases k with
  | none => rfl
  | some n =>
    by_cases hn : n ∈ p0names
    · obtain ⟨v, hv⟩ := alookup_isSome_of_mem pi n ((hmem n).mp hn)
      simp [hn, hv]
    · have : alookup n pi = none := by
        rw [alookup_eq_none_iff]
        intro hh
        exact hn ((hmem n).mpr hh)
      simp [hn, this]

theorem ofPairs_keys (pi : List (String × String)) :
    (ofPairs pi).map Prod.fst = (pi.map Prod.fst).map (fun n => (some n : RKey)) := by
  simp [ofPairs, List.map_map]

theorem ofPairs_headerCells (p0 : List (String × String)) :
    ((ofPairs p0).map Prod.fst).map csvStrOfKey = p0.map Prod.fst := by
  rw [ofPairs_keys, List.map_map]
  show List.map (fun n => n) (p0.map Prod.fst) = p0.map Prod.fst
  exact List.map_id _

theorem forall₂_map_of_mem {α β : Type} {Rr : β → β → Prop} (l : List α) (f g : α → β)
    (h : ∀ x ∈ l, Rr (f x) (g x)) : List.Forall₂ Rr (l.map f) (l.map g) := by
  induction l with
  | nil => exact List.Forall₂.nil
  | cons x xs ih =>
    exact List.Forall₂.cons (h x (by simp)) (ih (fun y hy => h y (by simp [hy])))

/-- Decoding the delimited-text encoding of a plain, uniform, non-empty record
set returns a Python-equal record set. -/
theorem csv_decode_encode (p0 : List (String × String)) (prest : List (List (String × String)))
    (hkeys0 : p0 ≠ [])
    (hnodup : (p0.map Prod.fst).Nodup)
    (huniform : ∀ pi ∈ p0 :: prest, ∀ n, n ∈ p0.map Prod.fst ↔ n ∈ pi.map Prod.fst)
    (hplain : ∀ pi ∈ p0 :: prest, ∀ q ∈ pi,
      (∀ c ∈ q.1.data, isPyLineBoundary c = false) ∧
      (∀ c ∈ q.2.data, isPyLineBoundary c = false)) :
    recordSetPyEq (csv_file_content_to_dict (csvFileContent ((p0 :: prest).map ofPairs)))
      ((p0 :: prest).map ofPairs) := by
  have hextras : ∀ r ∈ ofPairs p0 :: prest.map ofPairs,
      hasExtraKey ((ofPairs p0).map Prod.fst) r = false := by
    intro r hr
    rw [show (ofPairs p0 :: prest.map ofPairs) = (p0 :: prest).map ofPairs from rfl,
      List.mem_map] at hr
    obtain ⟨pi, hpi, rfl⟩ := hr
    rw [ofPairs_keys]
    exact hasExtraKey_ofPairs_false _ pi (fun n hn => (huniform pi hpi n).mpr hn)
  have hdata := csvFileContent_data (ofPairs p0) (prest.map ofPairs) hextras
  have hcells : ∀ pi ∈ p0 :: prest,
      dictToRow ((ofPairs p0).map Prod.fst) (ofPairs pi) =
        (p0.map Prod.fst).map (fun n => (alookup n pi).getD "") := by
    intro pi _
    rw [ofPairs_keys, dictToRow_ofPairs]
  have hrows : (((ofPairs p0).map Prod.fst).map csvStrOfKey ::
      (ofPairs p0 :: prest.map ofPairs).map (dictToRow ((ofPairs p0).map Prod.fst))) =
      (p0.map Prod.fst) ::
        (p0 :: prest).map (fun pi => (p0.map Prod.fst).map (fun n => (alookup n pi).getD "")) := by
    rw [ofPairs_headerCells]
    congr 1
    rw [show (ofPairs p0 :: prest.map ofPairs) = (p0 :: prest).map ofPairs from rfl,
      List.map_map]
    apply List.map_congr_left
    intro pi hpi
    exact hcells pi hpi
  rw [hrows] at hdata
  have hvalplain : ∀ cells ∈ (p0.map Prod.fst) ::
      (p0 :: prest).map (fun pi => (p0.map Prod.fst).map (fun n => (alookup n pi).getD "")),
      ∀ s ∈ cells, ∀ c ∈ s.data, isPyLineBoundary c = false := by
    intro cells hcells s hs
    rcases List.mem_cons.mp hcells with h1 | h1
    · subst h1
      rw [List.mem_map] at hs
      obtain ⟨q, hq, rfl⟩ := hs
      exact (hplain p0 (by simp) q hq).1
    · rw [List.mem_map] at h1
      obtain ⟨pi, hpi, rfl⟩ := h1
      rw [List.mem_map] at hs
      obtain ⟨n, hn, rfl⟩ := hs
      cases hv : alookup n pi with
      | none => simp [hv]
      | some v =>
        simp only [hv, Option.getD_some]
        have := alookup_mem_values pi n v hv
        rw [List.mem_map] at this
        obtain ⟨q, hq, rfl⟩ := this
        exact (hplain pi hpi q hq).2
  have hcontent : csvFileContent ((p0 :: prest).map ofPairs) =
      String.mk ((((p0.map Prod.fst) ::
        (p0 :: prest).map (fun pi => (p0.map Prod.fst).map (fun n => (alookup n pi).getD ""))).flatMap
          (fun cells => (csvLineStr cells).data ++ ['\r', '\n']))) :=
    congrArg String.mk hdata
  unfold csv_file_content_to_dict csvReaderRows
  rw [hcontent, pySplitlines_rows_content _ hvalplain]
  have hne : ∀ r ∈ (p0.map Prod.fst) ::
      (p0 :: prest).map (fun pi => (p0.map Prod.fst).map (fun n => (alookup n pi).getD "")),
      r ≠ [] := by
    intro r hr
    rcases List.mem_cons.mp hr with h1 | h1
    · subst h1
      simpa using hkeys0
    · rw [List.mem_map] at h1
      obtain ⟨pi, _, rfl⟩ := h1
      simpa using hkeys0
  rw [csvReadAux_mkLines _ hne]
  rw [show dictReaderRecords ((p0.map Prod.fst) ::
      (p0 :: prest).map (fun pi => (p0.map Prod.fst).map (fun n => (alookup n pi).getD ""))) =
    (((p0 :: prest).map (fun pi =>
        (p0.map Prod.fst).map (fun n => (alookup n pi).getD ""))).filter
      (fun row => !row.isEmpty)).map
        (fun row => rowRecord (p0.map Prod.fst) row) from rfl]
  rw [List.filter_eq_self.mpr (by
    intro row hrow
    rw [List.mem_map] at hrow
    obtain ⟨pi, _, rfl⟩ := hrow
    simpa using hkeys0)]
  rw [List.map_map]
  apply forall₂_map_of_mem
  intro pi hpi
  exact decoded_record_pyEq (p0.map Prod.fst) pi
    (fun n => huniform pi hpi n) hnodup

/-! ## Round-trip machinery: JSON strings -/

theorem char_toNat_valid (c : Char) :
    c.toNat < 0xd800 ∨ (0xdfff < c.toNat ∧ c.toNat < 0x110000) := c.valid

theorem hexVal_hexDig : ∀ d < 16, hexVal (hexDig d) = some d := by decide

theorem parseHex4_hex4 (n : Nat) (h : n < 65536) (rest : List Char) :
    parseHex4 (hex4 n ++ rest) = some (n, rest) := by
  rw [show hex4 n ++ rest = hexDig (n / 4096 % 16) :: hexDig (n / 256 % 16) ::
      hexDig (n / 16 % 16) :: hexDig (n % 16) :: rest from rfl]
  rw [parseHex4]
  rw [hexVal_hexDig _ (Nat.mod_lt _ (by norm_num)),
    hexVal_hexDig _ (Nat.mod_lt _ (by norm_num)),
    hexVal_hexDig _ (Nat.mod_lt _ (by norm_num)),
    hexVal_hexDig _ (Nat.mod_lt _ (by norm_num))]
  simp only [Option.some.injEq, Prod.mk.injEq]
  refine ⟨by omega, trivial⟩

theorem jsonEscapeChar_length_pos (c : Char) : 1 ≤ (jsonEscapeChar c).length := by
  unfold jsonEscapeChar
  repeat' split
  all_goals simp [hex4]

theorem escL_length (l : List Char) : l.length ≤ (l.flatMap jsonEscapeChar).length := by
  induction l with
  | nil => simp
  | cons c l ih =>
    rw [List.flatMap_cons, List.length_append, List.length_cons]
    have := jsonEscapeChar_length_pos c
    omega

theorem parseStrAux_cons_backslash (fuel : Nat) (xs acc : List Char) :
    parseStrAux (fuel + 1) ('\\' :: xs) acc =
      match parseEscape xs with
      | some p => parseStrAux fuel p.2 (p.1 :: acc)
      | none => none := by
  simp [parseStrAux]

theorem parseStrAux_printed (l : List Char) :
    ∀ (fuel : Nat) (acc rest : List Char), l.length < fuel →
      parseStrAux fuel (l.flatMap jsonEscapeChar ++ '"' :: rest) acc =
        some (String.mk (acc.reverse ++ l), rest) := by
  induction l with
  | nil =>
    intro fuel acc rest hfuel
    match fuel, hfuel with
    | fuel + 1, _ => simp [parseStrAux]
  | cons c l ih =>
    intro fuel acc rest hfuel
    match fuel, hfuel with
    | fuel + 1, hfuel =>
      have hfuel1 : l.length < fuel := by
        simp only [List.length_cons] at hfuel
        omega
      rw [List.flatMap_cons, List.append_assoc]
      by_cases h1 : c = '"'
      · subst h1
        rw [show jsonEscapeChar '"' = ['\\', '"'] from rfl]
        rw [show (['\\', '"'] : List Char) ++ (l.flatMap jsonEscapeChar ++ '"' :: rest) =
            '\\' :: '"' :: (l.flatMap jsonEscapeChar ++ '"' :: rest) from rfl]
        rw [show parseStrAux (fuel + 1)
            ('\\' :: '"' :: (l.flatMap jsonEscapeChar ++ '"' :: rest)) acc =
          parseStrAux fuel (l.flatMap jsonEscapeChar ++ '"' :: rest) ('"' :: acc) from by
            simp [parseStrAux, parseEscape]]
        rw [ih fuel ('"' :: acc) rest hfuel1]
        simp
      by_cases h2 : c = '\\'
      · subst h2
        rw [show jsonEscapeChar '\\' = ['\\', '\\'] from rfl]
        rw [show (['\\', '\\'] : List Char) ++ (l.flatMap jsonEscapeChar ++ '"' :: rest) =
            '\\' :: '\\' :: (l.flatMap jsonEscapeChar ++ '"' :: rest) from rfl]
        rw [show parseStrAux (fuel + 1)
            ('\\' :: '\\' :: (l.flatMap jsonEscapeChar ++ '"' :: rest)) acc =
          parseStrAux fuel (l.flatMap jsonEscapeChar ++ '"' :: rest) ('\\' :: acc) from by
            simp [parseStrAux, parseEscape]]
        rw [ih fuel ('\\' :: acc) rest hfuel1]
        simp
      by_cases h3 : c = '\n'
      · subst h3
        rw [show jsonEscapeChar '\n' = ['\\', 'n'] from rfl]
        rw [show (['\\', 'n'] : List Char) ++ (l.flatMap jsonEscapeChar ++ '"' :: rest) =
            '\\' :: 'n' :: (l.flatMap jsonEscapeChar ++ '"' :: rest) from rfl]
        rw [show parseStrAux (fuel + 1)
            ('\\' :: 'n' :: (l.flatMap jsonEscapeChar ++ '"' :: rest)) acc =
          parseStrAux fuel (l.flatMap jsonEscapeChar ++ '"' :: rest) ('\n' :: acc) from by
            simp [parseStrAux, parseEscape]]
        rw [ih fuel ('\n' :: acc) rest hfuel1]
        simp
      by_cases h4 : c = '\r'
      · subst h4
        rw [show jsonEscapeChar '\r' = ['\\', 'r'] from rfl]
        rw [show (['\\', 'r'] : List Char) ++ (l.flatMap jsonEscapeChar ++ '"' :: rest) =
            '\\' :: 'r' :: (l.flatMap jsonEscapeChar ++ '"' :: rest) from rfl]
        rw [show parseStrAux (fuel + 1)
            ('\\' :: 'r' :: (l.flatMap jsonEscapeChar ++ '"' :: rest)) acc =
          parseStrAux fuel (l.flatMap jsonEscapeChar ++ '"' :: rest) ('\r' :: acc) from by
            simp [parseStrAux, parseEscape]]
        rw [ih fuel ('\r' :: acc) rest hfuel1]
        simp
      by_cases h5 : c = '\t'
      · subst h5
        rw [show jsonEscapeChar '\t' = ['\\', 't'] from rfl]
        rw [show (['\\', 't'] : List Char) ++ (l.flatMap jsonEscapeChar ++ '"' :: rest) =
            '\\' :: 't' :: (l.flatMap jsonEscapeChar ++ '"' :: rest) from rfl]
        rw [show parseStrAux (fuel + 1)
            ('\\' :: 't' :: (l.flatMap jsonEscapeChar ++ '"' :: rest)) acc =
          parseStrAux fuel (l.flatMap jsonEscapeChar ++ '"' :: rest) ('\t' :: acc) from by
            simp [parseStrAux, parseEscape]]
        rw [ih fuel ('\t' :: acc) rest hfuel1]
        simp
      by_cases h6 : c = '\x08'
      · subst h6
        rw [show jsonEscapeChar '\x08' = ['\\', 'b'] from rfl]
        rw [show (['\\', 'b'] : List Char) ++ (l.flatMap jsonEscapeChar ++ '"' :: rest) =
            '\\' :: 'b' :: (l.flatMap jsonEscapeChar ++ '"' :: rest) from rfl]
        rw [show parseStrAux (fuel + 1)
            ('\\' :: 'b' :: (l.flatMap jsonEscapeChar ++ '"' :: rest)) acc =
          parseStrAux fuel (l.flatMap jsonEscapeChar ++ '"' :: rest) ('\x08' :: acc) from by
            simp [parseStrAux, parseEscape]]
        rw [ih fuel ('\x08' :: acc) rest hfuel1]
        simp
      by_cases h7 : c = '\x0c'
      · subst h7
        rw [show jsonEscapeChar '\x0c' = ['\\', 'f'] from rfl]
        rw [show (['\\', 'f'] : List Char) ++ (l.flatMap jsonEscapeChar ++ '"' :: rest) =
            '\\' :: 'f' :: (l.flatMap jsonEscapeChar ++ '"' :: rest) from rfl]
        rw [show parseStrAux (fuel + 1)
            ('\\' :: 'f' :: (l.flatMap jsonEscapeChar ++ '"' :: rest)) acc =
          parseStrAux fuel (l.flatMap jsonEscapeChar ++ '"' :: rest) ('\x0c' :: acc) from by
            simp [parseStrAux, parseEscape]]
        rw [ih fuel ('\x0c' :: acc) rest hfuel1]
        simp
      by_cases h8 : c.toNat < 0x20
      · rw [show jsonEscapeChar c = '\\' :: 'u' :: hex4 c.toNat from by
          unfold jsonEscapeChar
          rw [if_neg h1, if_neg h2, if_neg h3, if_neg h4, if_neg h5, if_neg h6, if_neg h7,
            if_pos h8]]
        rw [show ('\\' :: 'u' :: hex4 c.toNat) ++ (l.flatMap jsonEscapeChar ++ '"' :: rest) =
            '\\' :: 'u' :: (hex4 c.toNat ++ (l.flatMap jsonEscapeChar ++ '"' :: rest)) from by
          simp]
        rw [parseStrAux_cons_backslash]
        rw [show parseEscape ('u' :: (hex4 c.toNat ++ (l.flatMap jsonEscapeChar ++ '"' :: rest))) =
            some (Char.ofNat c.toNat, l.flatMap jsonEscapeChar ++ '"' :: rest) from by
          simp only [parseEscape]
          rw [parseHex4_hex4 c.toNat (by omega)]
          dsimp only
          rw [if_neg (show ¬(0xd800 ≤ c.toNat ∧ c.toNat ≤ 0xdbff) from by omega)]
          simp]
        rw [show (match (some (Char.ofNat c.toNat, l.flatMap jsonEscapeChar ++ '"' :: rest) :
            Option (Char × List Char)) with
          | some p => parseStrAux fuel p.2 (p.1 :: acc)
          | none => none) =
          parseStrAux fuel (l.flatMap jsonEscapeChar ++ '"' :: rest)
            (Char.ofNat c.toNat :: acc) from rfl]
        rw [Char.ofNat_toNat, ih fuel (c :: acc) rest hfuel1]
        simp
      by_cases h9 : c.toNat ≤ 0x7e
      · rw [show jsonEscapeChar c = [c] from by
          unfold jsonEscapeChar
          rw [if_neg h1, if_neg h2, if_neg h3, if_neg h4, if_neg h5, if_neg h6, if_neg h7,
            if_neg h8, if_pos h9]]
        rw [show ([c] : List Char) ++ (l.flatMap jsonEscapeChar ++ '"' :: rest) =
            c :: (l.flatMap jsonEscapeChar ++ '"' :: rest) from rfl]
        rw [show parseStrAux (fuel + 1) (c :: (l.flatMap jsonEscapeChar ++ '"' :: rest)) acc =
          parseStrAux fuel (l.flatMap jsonEscapeChar ++ '"' :: rest) (c :: acc) from by
            simp [parseStrAux, h1, h2, h8]]
        rw [ih fuel (c :: acc) rest hfuel1]
        simp
      by_cases h10 : c.toNat < 0x10000
      · have hvalid := char_toNat_valid c
        rw [show jsonEscapeChar c = '\\' :: 'u' :: hex4 c.toNat from by
          unfold jsonEscapeChar
          rw [if_neg h1, if_neg h2, if_neg h3, if_neg h4, if_neg h5, if_neg h6, if_neg h7,
            if_neg h8, if_neg h9, if_pos h10]]
        rw [show ('\\' :: 'u' :: hex4 c.toNat) ++ (l.flatMap jsonEscapeChar ++ '"' :: rest) =
            '\\' :: 'u' :: (hex4 c.toNat ++ (l.flatMap jsonEscapeChar ++ '"' :: rest)) from by
          simp]
        rw [parseStrAux_cons_backslash]
        rw [show parseEscape ('u' :: (hex4 c.toNat ++ (l.flatMap jsonEscapeChar ++ '"' :: rest))) =
            some (Char.ofNat c.toNat, l.flatMap jsonEscapeChar ++ '"' :: rest) from by
          simp only [parseEscape]
          rw [parseHex4_hex4 c.toNat (by omega)]
          dsimp only
          rw [if_neg (show ¬(0xd800 ≤ c.toNat ∧ c.toNat ≤ 0xdbff) from by omega)]
          simp]
        rw [show (match (some (Char.ofNat c.toNat, l.flatMap jsonEscapeChar ++ '"' :: rest) :
            Option (Char × List Char)) with
          | some p => parseStrAux fuel p.2 (p.1 :: acc)
          | none => none) =
          parseStrAux fuel (l.flatMap jsonEscapeChar ++ '"' :: rest)
            (Char.ofNat c.toNat :: acc) from rfl]
        rw [Char.ofNat_toNat, ih fuel (c :: acc) rest hfuel1]
        simp
      · have hvalid := char_toNat_valid c
        have hv : c.toNat - 0x10000 < 0x100000 := by omega
        rw [show jsonEscapeChar c =
            ('\\' :: 'u' :: hex4 (0xd800 + (c.toNat - 0x10000) / 0x400)) ++
              ('\\' :: 'u' :: hex4 (0xdc00 + (c.toNat - 0x10000) % 0x400)) from by
          unfold jsonEscapeChar
          rw [if_neg h1, if_neg h2, if_neg h3, if_neg h4, if_neg h5, if_neg h6, if_neg h7,
            if_neg h8, if_neg h9, if_neg h10]]
        rw [show (('\\' :: 'u' :: hex4 (0xd800 + (c.toNat - 0x10000) / 0x400)) ++
              ('\\' :: 'u' :: hex4 (0xdc00 + (c.toNat - 0x10000) % 0x400))) ++
            (l.flatMap jsonEscapeChar ++ '"' :: rest) =
          '\\' :: 'u' :: (hex4 (0xd800 + (c.toNat - 0x10000) / 0x400) ++
            ('\\' :: 'u' :: (hex4 (0xdc00 + (c.toNat - 0x10000) % 0x400) ++
              (l.flatMap jsonEscapeChar ++ '"' :: rest)))) from by simp]
        rw [parseStrAux_cons_backslash]
        rw [show parseEscape ('u' :: (hex4 (0xd800 + (c.toNat - 0x10000) / 0x400) ++
            ('\\' :: 'u' :: (hex4 (0xdc00 + (c.toNat - 0x10000) % 0x400) ++
              (l.flatMap jsonEscapeChar ++ '"' :: rest))))) =
            some (Char.ofNat c.toNat, l.flatMap jsonEscapeChar ++ '"' :: rest) from by
          simp only [parseEscape]
          rw [parseHex4_hex4 (0xd800 + (c.toNat - 0x10000) / 0x400) (by omega)]
          dsimp only
          rw [if_pos (show 0xd800 ≤ 0xd800 + (c.toNat - 0x10000) / 0x400 ∧
            0xd800 + (c.toNat - 0x10000) / 0x400 ≤ 0xdbff from by constructor <;> omega)]
          rw [if_pos (show ('\\' : Char) = '\\' ∧ ('u' : Char) = 'u' from ⟨rfl, rfl⟩)]
          rw [parseHex4_hex4 (0xdc00 + (c.toNat - 0x10000) % 0x400) (by omega)]
          dsimp only
          rw [if_pos (show 0xdc00 ≤ 0xdc00 + (c.toNat - 0x10000) % 0x400 ∧
            0xdc00 + (c.toNat - 0x10000) % 0x400 ≤ 0xdfff from by constructor <;> omega)]
          rw [show 0x10000 + (0xd800 + (c.toNat - 0x10000) / 0x400 - 0xd800) * 0x400 +
            (0xdc00 + (c.toNat - 0x10000) % 0x400 - 0xdc00) = c.toNat from by omega]
          simp]
        rw [show (match (some (Char.ofNat c.toNat, l.flatMap jsonEscapeChar ++ '"' :: rest) :
            Option (Char × List Char)) with
          | some p => parseStrAux fuel p.2 (p.1 :: acc)
          | none => none) =
          parseStrAux fuel (l.flatMap jsonEscapeChar ++ '"' :: rest)
            (Char.ofNat c.toNat :: acc) from rfl]
        rw [Char.ofNat_toNat, ih fuel (c :: acc) rest hfuel1]
        simp

/-! ## `json.loads` recovers what `json.dumps` printed -/

theorem skipWs_not_ws {c : Char} (h : isJsonWs c = false) (cs : List Char) :
    skipWs (c :: cs) = c :: cs := by
  simp [skipWs, h]

theorem skipWs_dumpStrL_append (s : String) (rest : List Char) :
    skipWs (dumpStrL s ++ rest) = dumpStrL s ++ rest := by
  rw [show dumpStrL s ++ rest = '"' :: (s.data.flatMap jsonEscapeChar ++ '"' :: rest) from by
    simp [dumpStrL]]
  exact skipWs_not_ws (by decide) _

theorem parseJString_printed (s : String) (rest : List Char) :
    parseJString (dumpStrL s ++ rest) = some (s, rest) := by
  rw [show dumpStrL s ++ rest = '"' :: (s.data.flatMap jsonEscapeChar ++ '"' :: rest) from by
    simp [dumpStrL]]
  rw [show parseJString ('"' :: (s.data.flatMap jsonEscapeChar ++ '"' :: rest)) =
      parseStrAux ((s.data.flatMap jsonEscapeChar ++ '"' :: rest).length + 1)
        (s.data.flatMap jsonEscapeChar ++ '"' :: rest) [] from by
    simp [parseJString]]
  rw [parseStrAux_printed s.data _ [] rest (by
    have := escL_length s.data
    simp only [List.length_append, List.length_cons]
    omega)]
  cases s
  simp

theorem parseJVal_str (s : String) (rest : List Char) :
    parseJVal (dumpStrL s ++ rest) = some (CVal.s s, rest) := by
  rw [show dumpStrL s ++ rest = '"' :: (s.data.flatMap jsonEscapeChar ++ '"' :: rest) from by
    simp [dumpStrL]]
  simp only [parseJVal]
  rw [if_pos trivial]
  rw [parseStrAux_printed s.data _ [] rest (by
    have := escL_length s.data
    simp only [List.length_append, List.length_cons]
    omega)]
  cases s
  simp

/-- The text of an object body between the first key and the closing brace
position, as `json.dumps(..., indent=2)` lays it out. -/
def pairsTextL : List (RKey × CVal) → List Char
  | [] => []
  | [p] => jsonKeyL p.1 ++ ": ".data ++ jsonValL p.2
  | p :: ps => jsonKeyL p.1 ++ ": ".data ++ jsonValL p.2 ++ ",\n    ".data ++ pairsTextL ps

theorem joinSep_items_pairsTextL (ps : List (RKey × CVal)) (p : RKey × CVal) :
    joinSep ",\n".data
        ((p :: ps).map (fun q => "    ".data ++ (jsonKeyL q.1 ++ ": ".data ++ jsonValL q.2))) =
      "    ".data ++ pairsTextL (p :: ps) := by
  induction ps generalizing p with
  | nil => simp [joinSep, pairsTextL]
  | cons q t ih =>
    rw [List.map_cons]
    rw [show joinSep ",\n".data (("    ".data ++ (jsonKeyL p.1 ++ ": ".data ++ jsonValL p.2)) ::
        ((q :: t).map (fun q => "    ".data ++ (jsonKeyL q.1 ++ ": ".data ++ jsonValL q.2)))) =
      ("    ".data ++ (jsonKeyL p.1 ++ ": ".data ++ jsonValL p.2)) ++ ",\n".data ++
        joinSep ",\n".data ((q :: t).map
          (fun q => "    ".data ++ (jsonKeyL q.1 ++ ": ".data ++ jsonValL q.2))) from rfl]
    rw [ih q]
    rw [show pairsTextL (p :: q :: t) =
      jsonKeyL p.1 ++ ": ".data ++ jsonValL p.2 ++ ",\n    ".data ++ pairsTextL (q :: t) from rfl]
    simp

theorem dumpStrL_length (s : String) : 2 ≤ (dumpStrL s).length := by
  simp [dumpStrL]

theorem jsonKeyL_length (k : RKey) : 2 ≤ (jsonKeyL k).length := by
  cases k <;> exact dumpStrL_length _

theorem pairsTextL_length (ps : List (RKey × CVal)) : ps.length ≤ (pairsTextL ps).length := by
  induction ps with
  | nil => simp [pairsTextL]
  | cons p t ih =>
    cases t with
    | nil =>
      have := jsonKeyL_length p.1
      simp only [pairsTextL, List.length_append, List.length_cons, List.length_nil]
      omega
    | cons q t2 =>
      have := jsonKeyL_length p.1
      rw [show pairsTextL (p :: q :: t2) =
        jsonKeyL p.1 ++ ": ".data ++ jsonValL p.2 ++ ",\n    ".data ++ pairsTextL (q :: t2)
          from rfl]
      simp only [List.length_append, List.length_cons, List.length_nil] at ih ⊢
      omega

theorem pairsTextL_head (k : String) (v : CVal) (ps : List (RKey × CVal)) :
    ∃ t, pairsTextL (((some k : RKey), v) :: ps) = '"' :: t := by
  cases ps with
  | nil =>
    exact ⟨k.data.flatMap jsonEscapeChar ++ ['"'] ++ (": ".data ++ jsonValL v), by
      simp [pairsTextL, jsonKeyL, dumpStrL]⟩
  | cons q t =>
    exact ⟨k.data.flatMap jsonEscapeChar ++ ['"'] ++
        (": ".data ++ jsonValL v ++ ",\n    ".data ++ pairsTextL (q :: t)), by
      rw [show pairsTextL ((some k, v) :: q :: t) =
        jsonKeyL (some k) ++ ": ".data ++ jsonValL v ++ ",\n    ".data ++ pairsTextL (q :: t)
          from rfl]
      simp [jsonKeyL, dumpStrL]⟩

theorem parsePairsAux_step (k v : String) (tail : List Char) (f : Nat) :
    parsePairsAux (f + 1) (dumpStrL k ++ ':' :: ' ' :: (dumpStrL v ++ tail)) =
      (match skipWs tail with
      | [] => none
      | d :: rest3 =>
        if d = ',' then
          match parsePairsAux f (skipWs rest3) with
          | some (ps, rest4) => some (((some k : RKey), CVal.s v) :: ps, rest4)
          | none => none
        else if d = '\x7d' then some ([((some k : RKey), CVal.s v)], rest3)
        else none) := by
  simp only [parsePairsAux]
  rw [parseJString_printed]
  dsimp only
  rw [skipWs_not_ws (by decide)]
  dsimp only
  rw [if_pos rfl]
  rw [show skipWs (' ' :: (dumpStrL v ++ tail)) = skipWs (dumpStrL v ++ tail) from by
    simp [skipWs, isJsonWs]]
  rw [skipWs_dumpStrL_append]
  rw [parseJVal_str]

theorem parsePairsAux_printed (ps : List (RKey × CVal)) :
    ∀ (fuel : Nat) (rest : List Char),
      (∀ p ∈ ps, ∃ k v, p = ((some k : RKey), CVal.s v)) → ps ≠ [] → ps.length < fuel →
      parsePairsAux fuel (pairsTextL ps ++ "\n  ".data ++ '\x7d' :: rest) = some (ps, rest) := by
  induction ps with
  | nil => intro fuel rest hform hne; exact absurd rfl hne
  | cons p ps ih =>
    intro fuel rest hform hne hfuel
    obtain ⟨k, v, hp⟩ := hform p (by simp)
    subst hp
    match fuel, hfuel with
    | fuel + 1, hfuel =>
      cases ps with
      | nil =>
        rw [show pairsTextL [((some k : RKey), CVal.s v)] ++ "\n  ".data ++ '\x7d' :: rest =
          dumpStrL k ++ ':' :: ' ' :: (dumpStrL v ++ ('\n' :: ' ' :: ' ' :: '\x7d' :: rest))
            from by
          simp [pairsTextL, jsonKeyL, jsonValL]]
        rw [parsePairsAux_step]
        rw [show skipWs ('\n' :: ' ' :: ' ' :: '\x7d' :: rest) = '\x7d' :: rest from by
          simp [skipWs, isJsonWs]]
        dsimp only
        rw [if_neg (show ('\x7d' : Char) ≠ ',' from by decide), if_pos rfl]
      | cons q t =>
        obtain ⟨k2, v2, hq⟩ := hform q (by simp)
        rw [show pairsTextL (((some k : RKey), CVal.s v) :: q :: t) ++ "\n  ".data ++
            '\x7d' :: rest =
          dumpStrL k ++ ':' :: ' ' :: (dumpStrL v ++ (',' :: '\n' :: ' ' :: ' ' :: ' ' :: ' ' ::
            (pairsTextL (q :: t) ++ "\n  ".data ++ '\x7d' :: rest))) from by
          rw [show pairsTextL (((some k : RKey), CVal.s v) :: q :: t) =
            jsonKeyL (some k) ++ ": ".data ++ jsonValL (CVal.s v) ++ ",\n    ".data ++
              pairsTextL (q :: t) from rfl]
          simp [jsonKeyL, jsonValL]]
        rw [parsePairsAux_step]
        rw [show skipWs (',' :: '\n' :: ' ' :: ' ' :: ' ' :: ' ' ::
            (pairsTextL (q :: t) ++ "\n  ".data ++ '\x7d' :: rest)) =
          ',' :: ('\n' :: ' ' :: ' ' :: ' ' :: ' ' ::
            (pairsTextL (q :: t) ++ "\n  ".data ++ '\x7d' :: rest)) from
          skipWs_not_ws (by decide) _]
        dsimp only
        rw [if_pos rfl]
        subst hq
        obtain ⟨tl, htl⟩ := pairsTextL_head k2 (CVal.s v2) t
        rw [show skipWs ('\n' :: ' ' :: ' ' :: ' ' :: ' ' ::
            (pairsTextL (((some k2 : RKey), CVal.s v2) :: t) ++ "\n  ".data ++ '\x7d' :: rest)) =
          pairsTextL (((some k2 : RKey), CVal.s v2) :: t) ++ "\n  ".data ++ '\x7d' :: rest
            from by
          rw [htl]
          simp [skipWs, isJsonWs]]
        rw [ih fuel rest (fun p hp => hform p (by simp [hp])) (by simp) (by
          simp only [List.length_cons] at hfuel ⊢
          omega)]

theorem jsonObjL_cons (p : RKey × CVal) (ps : List (RKey × CVal)) :
    jsonObjL (p :: ps) =
      '\x7b' :: '\n' :: ' ' :: ' ' :: ' ' :: ' ' ::
        (pairsTextL (p :: ps) ++ "\n  ".data ++ ['\x7d']) := by
  rw [show jsonObjL (p :: ps) = '\x7b' :: '\n' ::
      (joinSep ",\n".data
        ((p :: ps).map (fun q => "    ".data ++ jsonKeyL q.1 ++ ": ".data ++ jsonValL q.2))) ++
      "\n  ".data ++ ['\x7d'] from rfl]
  rw [show (p :: ps).map (fun q => "    ".data ++ jsonKeyL q.1 ++ ": ".data ++ jsonValL q.2) =
      (p :: ps).map (fun q => "    ".data ++ (jsonKeyL q.1 ++ ": ".data ++ jsonValL q.2)) from by
    simp [List.append_assoc]]
  rw [joinSep_items_pairsTextL]
  simp

theorem jsonObjL_head (r : Record) : ∃ t, jsonObjL r = '\x7b' :: t := by
  cases r with
  | nil => exact ⟨['\x7d'], rfl⟩
  | cons p ps =>
    exact ⟨'\n' :: ' ' :: ' ' :: ' ' :: ' ' :: (pairsTextL (p :: ps) ++ "\n  ".data ++ ['\x7d']),
      jsonObjL_cons p ps⟩

theorem jsonObjL_length (r : Record) : 2 ≤ (jsonObjL r).length := by
  cases r with
  | nil => simp [jsonObjL]
  | cons p ps => rw [jsonObjL_cons]; simp

theorem parseObj_printed (r : Record)
    (hform : ∀ p ∈ r, ∃ k v, p = ((some k : RKey), CVal.s v))
    (hnodup : (r.map Prod.fst).Nodup) (rest : List Char) :
    parseObj (jsonObjL r ++ rest) = some (r, rest) := by
  cases r with
  | nil =>
    rw [show jsonObjL [] ++ rest = '\x7b' :: '\x7d' :: rest from rfl]
    simp [parseObj, skipWs, isJsonWs]
  | cons p ps =>
    rw [jsonObjL_cons]
    rw [show ('\x7b' :: '\n' :: ' ' :: ' ' :: ' ' :: ' ' ::
        (pairsTextL (p :: ps) ++ "\n  ".data ++ ['\x7d'])) ++ rest =
      '\x7b' :: ('\n' :: ' ' :: ' ' :: ' ' :: ' ' ::
        (pairsTextL (p :: ps) ++ "\n  ".data ++ '\x7d' :: rest)) from by simp]
    simp only [parseObj]
    rw [if_pos trivial]
    obtain ⟨k, v, hp⟩ := hform p (by simp)
    have htl : ∃ tl, pairsTextL (p :: ps) = '"' :: tl := by
      subst hp
      exact pairsTextL_head k (CVal.s v) ps
    obtain ⟨tl, htl⟩ := htl
    have hh : skipWs ('\n' :: ' ' :: ' ' :: ' ' :: ' ' ::
        (pairsTextL (p :: ps) ++ "\n  ".data ++ '\x7d' :: rest)) =
      pairsTextL (p :: ps) ++ "\n  ".data ++ '\x7d' :: rest := by
      rw [htl]
      simp [skipWs, isJsonWs]
    rw [hh]
    have hb := pairsTextL_length (p :: ps)
    rw [parsePairsAux_printed (p :: ps) _ rest hform (by simp) (by
      simp only [List.length_append, List.length_cons] at hb ⊢
      omega)]
    rw [show pairsTextL (p :: ps) ++ "\n  ".data ++ '\x7d' :: rest =
      '"' :: (tl ++ "\n  ".data ++ '\x7d' :: rest) from by rw [htl]; simp]
    dsimp only
    rw [if_neg (show ('"' : Char) ≠ '\x7d' from by decide)]
    rw [pyDictOfPairs_nodup (p :: ps) hnodup]

theorem joinSep_objs_head (r : Record) (rs : List Record) (sep : List Char) :
    ∃ t, joinSep sep ((r :: rs).map jsonObjL) = '\x7b' :: t := by
  obtain ⟨t0, h0⟩ := jsonObjL_head r
  cases rs with
  | nil => exact ⟨t0, by simpa [joinSep] using h0⟩
  | cons r2 t =>
    refine ⟨t0 ++ sep ++ joinSep sep ((r2 :: t).map jsonObjL), ?_⟩
    rw [List.map_cons]
    rw [show joinSep sep (jsonObjL r :: (r2 :: t).map jsonObjL) =
      jsonObjL r ++ sep ++ joinSep sep ((r2 :: t).map jsonObjL) from rfl]
    rw [h0]
    simp

theorem joinSep_objs_length (sep : List Char) (rs : List Record) :
    rs.length ≤ (joinSep sep (rs.map jsonObjL)).length := by
  induction rs with
  | nil => simp [joinSep]
  | cons r t ih =>
    cases t with
    | nil =>
      have := jsonObjL_length r
      simp only [List.map_cons, List.map_nil, joinSep, List.length_cons, List.length_nil]
      omega
    | cons r2 t2 =>
      have := jsonObjL_length r
      rw [List.map_cons]
      rw [show joinSep sep (jsonObjL r :: (r2 :: t2).map jsonObjL) =
        jsonObjL r ++ sep ++ joinSep sep ((r2 :: t2).map jsonObjL) from rfl]
      simp only [List.length_append, List.length_cons] at ih ⊢
      omega

theorem parseItemsAux_printed (rs : RecordSet) :
    ∀ (fuel : Nat) (rest : List Char),
      (∀ r ∈ rs, (∀ p ∈ r, ∃ k v, p = ((some k : RKey), CVal.s v)) ∧
        (r.map Prod.fst).Nodup) →
      rs ≠ [] → rs.length < fuel →
      parseItemsAux fuel (joinSep ",\n  ".data (rs.map jsonObjL) ++ '\n' :: ']' :: rest) =
        some (rs, rest) := by
  induction rs with
  | nil => intro fuel rest hform hne; exact absurd rfl hne
  | cons r rs ih =>
    intro fuel rest hform hne hfuel
    match fuel, hfuel with
    | fuel + 1, hfuel =>
      cases rs with
      | nil =>
        rw [show joinSep ",\n  ".data ([r].map jsonObjL) = jsonObjL r from rfl]
        simp only [parseItemsAux]
        rw [parseObj_printed r (hform r (by simp)).1 (hform r (by simp)).2]
        dsimp only
        rw [show skipWs ('\n' :: ']' :: rest) = ']' :: rest from by simp [skipWs, isJsonWs]]
        dsimp only
        rw [if_neg (show (']' : Char) ≠ ',' from by decide), if_pos rfl]
      | cons r2 t =>
        rw [List.map_cons]
        rw [show joinSep ",\n  ".data (jsonObjL r :: (r2 :: t).map jsonObjL) =
          jsonObjL r ++ ",\n  ".data ++ joinSep ",\n  ".data ((r2 :: t).map jsonObjL) from rfl]
        rw [show (jsonObjL r ++ ",\n  ".data ++ joinSep ",\n  ".data ((r2 :: t).map jsonObjL)) ++
            '\n' :: ']' :: rest =
          jsonObjL r ++ (',' :: '\n' :: ' ' :: ' ' ::
            (joinSep ",\n  ".data ((r2 :: t).map jsonObjL) ++ '\n' :: ']' :: rest)) from by
          simp]
        simp only [parseItemsAux]
        rw [parseObj_printed r (hform r (by simp)).1 (hform r (by simp)).2]
        dsimp only
        rw [skipWs_not_ws (by decide)]
        dsimp only
        rw [if_pos rfl]
        obtain ⟨t0, h0⟩ := joinSep_objs_head r2 t ",\n  ".data
        rw [show skipWs ('\n' :: ' ' :: ' ' ::
            (joinSep ",\n  ".data ((r2 :: t).map jsonObjL) ++ '\n' :: ']' :: rest)) =
          joinSep ",\n  ".data ((r2 :: t).map jsonObjL) ++ '\n' :: ']' :: rest from by
          rw [h0]
          simp [skipWs, isJsonWs]]
        rw [ih fuel rest (fun x hx => hform x (by simp [hx])) (by simp) (by
          simp only [List.length_cons] at hfuel ⊢
          omega)]

theorem ofPairs_form (pi : List (String × String)) :
    ∀ p ∈ ofPairs pi, ∃ k v, p = ((some k : RKey), CVal.s v) := by
  intro p hp
  simp only [ofPairs, List.mem_map] at hp
  obtain ⟨q, -, hq⟩ := hp
  exact ⟨q.1, q.2, hq.symm⟩

theorem ofPairs_nodup_keys (pi : List (String × String))
    (h : (pi.map Prod.fst).Nodup) : ((ofPairs pi).map Prod.fst).Nodup := by
  rw [show (ofPairs pi).map Prod.fst = (pi.map Prod.fst).map (fun n => (some n : RKey)) from by
    simp [ofPairs, List.map_map]]
  exact h.map (fun a b hab => Option.some_injective _ hab)

theorem jsonLoads_dumps (Rp : List (List (String × String)))
    (hnodup : ∀ pi ∈ Rp, (pi.map Prod.fst).Nodup) :
    jsonLoads (jsonDumps (Rp.map ofPairs)) = some (Rp.map ofPairs) := by
  cases Rp with
  | nil => rfl
  | cons p0 prest =>
    rw [List.map_cons]
    rw [show jsonDumps (ofPairs p0 :: prest.map ofPairs) = String.mk ('[' :: '\n' :: ' ' :: ' ' ::
        (joinSep ",\n  ".data ((ofPairs p0 :: prest.map ofPairs).map jsonObjL) ++
          '\n' :: ']' :: [])) from by
      unfold jsonDumps jsonDumpsL
      simp]
    unfold jsonLoads
    rw [show (String.mk ('[' :: '\n' :: ' ' :: ' ' ::
        (joinSep ",\n  ".data ((ofPairs p0 :: prest.map ofPairs).map jsonObjL) ++
          '\n' :: ']' :: []))).data =
      '[' :: ('\n' :: ' ' :: ' ' ::
        (joinSep ",\n  ".data ((ofPairs p0 :: prest.map ofPairs).map jsonObjL) ++
          '\n' :: ']' :: [])) from rfl]
    rw [skipWs_not_ws (by decide)]
    dsimp only
    rw [if_pos rfl]
    obtain ⟨t0, h0⟩ := joinSep_objs_head (ofPairs p0) (prest.map ofPairs) ",\n  ".data
    have hh : skipWs ('\n' :: ' ' :: ' ' ::
        (joinSep ",\n  ".data ((ofPairs p0 :: prest.map ofPairs).map jsonObjL) ++
          '\n' :: ']' :: [])) =
      joinSep ",\n  ".data ((ofPairs p0 :: prest.map ofPairs).map jsonObjL) ++
        '\n' :: ']' :: [] := by
      rw [h0]
      simp [skipWs, isJsonWs]
    rw [hh]
    have hlen := joinSep_objs_length ",\n  ".data (ofPairs p0 :: prest.map ofPairs)
    rw [parseItemsAux_printed (ofPairs p0 :: prest.map ofPairs) _ []
      (by
        intro r hr
        simp only [List.mem_cons, List.mem_map] at hr
        rcases hr with hr | ⟨pi, hpi, hr⟩
        · subst hr
          exact ⟨ofPairs_form p0, ofPairs_nodup_keys p0 (hnodup p0 (by simp))⟩
        · subst hr
          exact ⟨ofPairs_form pi, ofPairs_nodup_keys pi (hnodup pi (by simp [hpi]))⟩)
      (by simp)
      (by
        simp only [List.length_cons, List.length_append] at hlen ⊢
        omega)]
    rw [show joinSep ",\n  ".data ((ofPairs p0 :: prest.map ofPairs).map jsonObjL) ++
        '\n' :: ']' :: [] = '\x7b' :: (t0 ++ '\n' :: ']' :: []) from by
      rw [h0]
      simp]
    dsimp only
    rw [if_neg (show ('\x7b' : Char) ≠ ']' from by decide)]
    rfl

/-! ## C2: round-trips of the two encoders -/

/-- A value containing a vertical tab refutes the delimited-text half of the
round-trip claim: the csv writer emits the character bare, `splitlines` then
cuts the data line in two, and the reader returns two one-field records where
one was written. -/
theorem C2_counterexample :
    csv_file_content_to_dict (csvFileContent
        [[((some "a" : RKey), CVal.s (String.mk ['x', '\x0b', 'y']))]]) =
      [[((some "a" : RKey), CVal.s "x")], [((some "a" : RKey), CVal.s "y")]] ∧
    ¬ recordSetPyEq
        (csv_file_content_to_dict (csvFileContent
          [[((some "a" : RKey), CVal.s (String.mk ['x', '\x0b', 'y']))]]))
        [[((some "a" : RKey), CVal.s (String.mk ['x', '\x0b', 'y']))]] := by
  refine ⟨rfl, ?_⟩
  intro h
  have hlen := List.Forall₂.length_eq h
  have e : csv_file_content_to_dict (csvFileContent
        [[((some "a" : RKey), CVal.s (String.mk ['x', '\x0b', 'y']))]]) =
      [[((some "a" : RKey), CVal.s "x")], [((some "a" : RKey), CVal.s "y")]] := rfl
  rw [e] at hlen
  simp at hlen

/-- C2: for a non-empty record set of string-keyed string fields with uniform
field names, unique keys per record, and — for the delimited-text half — no
`splitlines` boundary characters inside names or values, both round-trips
recover the records: the document decode is exact and the delimited-text
decode agrees up to Python dict equality.  (Without the boundary-character
restriction the delimited-text half fails, see the counterexample.) -/
theorem C2_roundtrip (p0 : List (String × String)) (prest : List (List (String × String)))
    (hkeys0 : p0 ≠ [])
    (hnodup : ∀ pi ∈ p0 :: prest, (pi.map Prod.fst).Nodup)
    (huniform : ∀ pi ∈ p0 :: prest, ∀ n, n ∈ p0.map Prod.fst ↔ n ∈ pi.map Prod.fst)
    (hplain : ∀ pi ∈ p0 :: prest, ∀ q ∈ pi,
      (∀ c ∈ q.1.data, isPyLineBoundary c = false) ∧
      (∀ c ∈ q.2.data, isPyLineBoundary c = false)) :
    jsonLoads (jsonDumps ((p0 :: prest).map ofPairs)) = some ((p0 :: prest).map ofPairs) ∧
    recordSetPyEq (csv_file_content_to_dict (csvFileContent ((p0 :: prest).map ofPairs)))
      ((p0 :: prest).map ofPairs) :=
  ⟨jsonLoads_dumps (p0 :: prest) hnodup,
    csv_decode_encode p0 prest hkeys0 (hnodup p0 (by simp)) huniform hplain⟩

theorem C2_roundtrip_witness :
    jsonLoads (jsonDumps ([[("a", "x"), ("b", "y")], [("a", "1"), ("b", "2")]].map ofPairs)) =
      some ([[("a", "x"), ("b", "y")], [("a", "1"), ("b", "2")]].map ofPairs) ∧
    recordSetPyEq
      (csv_file_content_to_dict (csvFileContent
        ([[("a", "x"), ("b", "y")], [("a", "1"), ("b", "2")]].map ofPairs)))
      ([[("a", "x"), ("b", "y")], [("a", "1"), ("b", "2")]].map ofPairs) :=
  C2_roundtrip [("a", "x"), ("b", "y")] [[("a", "1"), ("b", "2")]]
    (by decide)
    (by decide)
    (by
      intro pi hpi n
      rcases (by simpa using hpi) with rfl | rfl
      · exact Iff.rfl
      · exact Iff.rfl)
    (by decide)

/-! ## C7: short rows in a delimited-text decode -/

theorem zip_map_fst_take {α β : Type} (l1 : List α) (l2 : List β) :
    (List.zip l1 l2).map Prod.fst = l1.take l2.length := by
  induction l1 generalizing l2 with
  | nil => simp
  | cons a t ih =>
    cases l2 with
    | nil => simp
    | cons b t2 => simp [ih]

/-- A payload whose second line has fewer fields than the header decodes
without error — the missing field is padded with `None` — and a local load
stores the decoded records, replacing the pipeline state. -/
theorem C7_counterexample :
    csv_file_content_to_dict (String.mk ['a', ',', 'b', '\r', '\n', '1']) =
      [[((some "a" : RKey), CVal.s "1"), ((some "b" : RKey), CVal.null)]] ∧
    get_entries_from_csv { tt0 with source_file_name := some "in.csv" }
        ⟨[("in.csv", String.mk ['a', ',', 'b', '\r', '\n', '1'])], [], [], true⟩ none none =
      ({ tt0 with
          source_file_name := some "in.csv",
          list_of_dicts_entries :=
            some [[((some "a" : RKey), CVal.s "1"), ((some "b" : RKey), CVal.null)]] },
        ⟨[("in.csv", String.mk ['a', ',', 'b', '\r', '\n', '1'])], [], [], true⟩, .ok ()) :=
  ⟨rfl, rfl⟩

/-- C7: a delimited-text payload whose data row has fewer fields than the
header decodes without any error: `csv.DictReader` pads the missing fields
with the `restval` `None`, and a local load call replaces the current Record
Set with the decoded records instead of leaving the state unchanged. -/
theorem C7_short_rows_padded (ns vs : List String)
    (hn : ns ≠ []) (hvne : vs ≠ []) (hshort : vs.length < ns.length) (hnodup : ns.Nodup)
    (hplain : ∀ s ∈ ns ++ vs, ∀ c ∈ s.data, isPyLineBoundary c = false) :
    csv_file_content_to_dict (String.mk
        ((csvLineStr ns).data ++ ['\r', '\n'] ++ ((csvLineStr vs).data ++ ['\r', '\n']))) =
      [(List.zip ns vs).map (fun p => ((some p.1 : RKey), CVal.s p.2)) ++
        (ns.drop vs.length).map (fun k => ((some k : RKey), CVal.null))] ∧
    (∀ (tt : TableTransfer) (w : World) (fname : String),
      tt.source_file_name = some fname → fname ≠ "" → tt.source_s3_bucket = none →
      fsRead w fname = some (String.mk
        ((csvLineStr ns).data ++ ['\r', '\n'] ++ ((csvLineStr vs).data ++ ['\r', '\n']))) →
      get_entries_from_csv tt w none none =
        ({ tt with
            list_of_dicts_entries :=
              some [(List.zip ns vs).map (fun p => ((some p.1 : RKey), CVal.s p.2)) ++
                (ns.drop vs.length).map (fun k => ((some k : RKey), CVal.null))] },
          w, .ok ())) := by
  have hdec : csv_file_content_to_dict (String.mk
        ((csvLineStr ns).data ++ ['\r', '\n'] ++ ((csvLineStr vs).data ++ ['\r', '\n']))) =
      [(List.zip ns vs).map (fun p => ((some p.1 : RKey), CVal.s p.2)) ++
        (ns.drop vs.length).map (fun k => ((some k : RKey), CVal.null))] := by
    unfold csv_file_content_to_dict
    rw [show String.mk
          ((csvLineStr ns).data ++ ['\r', '\n'] ++ ((csvLineStr vs).data ++ ['\r', '\n'])) =
        String.mk ([ns, vs].flatMap (fun cells => (csvLineStr cells).data ++ ['\r', '\n']))
        from by simp]
    rw [pySplitlines_rows_content [ns, vs] (by
      intro cells hc s hs c hcs
      rcases (by simpa using hc : cells = ns ∨ cells = vs) with rfl | rfl
      · exact hplain s (by simp [hs]) c hcs
      · exact hplain s (by simp [hs]) c hcs)]
    unfold csvReaderRows
    rw [csvReadAux_mkLines [ns, vs] (by
      intro r hr
      rcases (by simpa using hr : r = ns ∨ r = vs) with rfl | rfl
      · exact hn
      · exact hvne)]
    rw [show dictReaderRecords [ns, vs] =
      ([vs].filter (fun row => !row.isEmpty)).map (fun row => rowRecord ns row) from rfl]
    rw [show ([vs].filter (fun row => !row.isEmpty)) = [vs] from by
      cases vs with
      | nil => exact absurd rfl hvne
      | cons a t => rfl]
    rw [List.map_cons, List.map_nil]
    simp only [rowRecord]
    rw [if_pos hshort]
    rw [pyDictOfPairs_nodup _ (by
      have h1 : (((List.zip ns vs).map
            (fun p => ((some p.1 : RKey), CVal.s p.2))).map Prod.fst) =
          (ns.take vs.length).map (fun n => (some n : RKey)) := by
        rw [List.map_map, ← zip_map_fst_take ns vs, List.map_map]
        rfl
      have h2 : (((ns.drop vs.length).map
            (fun k => ((some k : RKey), CVal.null))).map Prod.fst) =
          (ns.drop vs.length).map (fun n => (some n : RKey)) := by
        rw [List.map_map]
        rfl
      rw [List.map_append, h1, h2, ← List.map_append, List.take_append_drop]
      exact hnodup.map (fun a b hab => Option.some_injective _ hab))]
  refine ⟨hdec, ?_⟩
  intro tt w fname hf hfne hb hread
  unfold get_entries_from_csv _get_entries_from_csv_or_json
  rw [show truthyS (none : Option String) = false from rfl]
  simp only [Bool.false_eq_true, if_false]
  rw [hf, hb]
  rw [show truthyS (some fname) = true from by
    simp only [truthyS, Bool.not_eq_true']
    exact Bool.eq_false_iff.mpr (fun h => hfne ((String.isEmpty_iff fname).mp h))]
  simp only [Bool.not_true, Bool.false_eq_true, if_false]
  rw [show truthyS (none : Option String) = false from rfl]
  simp only [Bool.false_eq_true, if_false]
  rw [show (some fname).getD "" = fname from rfl]
  rw [show read_local_file w fname = .ok (String.mk
      ((csvLineStr ns).data ++ ['\r', '\n'] ++ ((csvLineStr vs).data ++ ['\r', '\n'])))
    from by rw [read_local_file, hread]]
  dsimp only
  rw [if_pos trivial]
  rw [hdec]

theorem C7_short_rows_padded_witness :
    csv_file_content_to_dict (String.mk
        ((csvLineStr ["a", "b"]).data ++ ['\r', '\n'] ++
          ((csvLineStr ["1"]).data ++ ['\r', '\n']))) =
      [(List.zip ["a", "b"] ["1"]).map (fun p => ((some p.1 : RKey), CVal.s p.2)) ++
        ((["a", "b"] : List String).drop 1).map (fun k => ((some k : RKey), CVal.null))] :=
  (C7_short_rows_padded ["a", "b"] ["1"] (by decide) (by decide) (by decide) (by decide)
    (by decide)).1

end TableTransferModel
